import Mathlib

/-!
Shallow embedding of the Solana orderbook DEX program
(src/programs/solana-orderbook-dex-smart-contract/src/) and proofs about it.

Machine integers (u64, u128, u16, u8) are modelled as Nat together with
explicit checked operations that fail (return none) exactly when the Rust
checked arithmetic would. Pubkeys are opaque identities modelled as Nat.
The i64 unix timestamp is modelled as Nat (the code converts it to u128
for id derivation, which is only meaningful for non-negative times).

Account byte regions are modelled at record granularity: the order slab is
a list of 128-byte order slots, each slot holding one Order record; an
all-zero slot (zeroOrder) is free, exactly as in Orderbook::get_order.
Orderbook::free_slot writes the previous free_list_head into the first
8 bytes of a freed slot, which in the record view sets the low half of
order_id of an otherwise zeroed record; allocate_slot reads it back the
same way.  Every handler is a pure function returning Except DexError;
an error result models the aborted (rolled back) transaction, in which no
state change is visible.
-/

namespace Dex

/-- Largest u64 value. -/
def U64MAX : Nat := 2 ^ 64 - 1

/-- Largest u128 value. -/
def U128MAX : Nat := 2 ^ 128 - 1

/-- Largest u16 value. -/
def U16MAX : Nat := 2 ^ 16 - 1

/-- Largest u8 value. -/
def U8MAX : Nat := 2 ^ 8 - 1

/-- Rust u64::checked_add. -/
def checkedAdd64 (a b : Nat) : Option Nat :=
  if a + b ≤ U64MAX then some (a + b) else none

/-- Rust u64::checked_mul. -/
def checkedMul64 (a b : Nat) : Option Nat :=
  if a * b ≤ U64MAX then some (a * b) else none

/-- Rust checked_sub on unsigned integers (any width). -/
def checkedSub (a b : Nat) : Option Nat :=
  if b ≤ a then some (a - b) else none

/-- Rust checked_div on unsigned integers: fails only on division by zero. -/
def checkedDiv (a b : Nat) : Option Nat :=
  if b = 0 then none else some (a / b)

/-- Rust u128::checked_mul. -/
def checkedMul128 (a b : Nat) : Option Nat :=
  if a * b ≤ U128MAX then some (a * b) else none

/-- Rust u128::checked_add. -/
def checkedAdd128 (a b : Nat) : Option Nat :=
  if a + b ≤ U128MAX then some (a + b) else none

/-- Rust u16::checked_add. -/
def checkedAdd16 (a b : Nat) : Option Nat :=
  if a + b ≤ U16MAX then some (a + b) else none

/-- Rust u8::checked_add. -/
def checkedAdd8 (a b : Nat) : Option Nat :=
  if a + b ≤ U8MAX then some (a + b) else none

/-- Error codes of the program (errors.rs), restricted to the variants the
modelled handlers can produce or that the claims mention. -/
inductive DexError where
  | MarketPaused
  | OrderNotFound
  | InvalidOrderParams
  | OrderSizeTooSmall
  | OrderSizeTooLarge
  | PriceNotOnTick
  | SelfTradePrevention
  | OrderAlreadyFilled
  | InvalidTimeInForce
  | PostOnlyWouldCross
  | OrderbookFull
  | OrderbookEmpty
  | InvalidOrderbookState
  | InsufficientLiquidity
  | InsufficientFunds
  | InvalidAccountState
  | InvalidMint
  | Unauthorized
  | MathOverflow
  | MathUnderflow
  | DivisionByZero
deriving DecidableEq, Repr

/-- Order record stored in one slab slot (orderbook.rs, struct Order).
Side encoding: 0 = Bid, 1 = Ask.  TIF encoding: 0 = GTC, 1 = IOC,
2 = FOK, 3 = PostOnly. -/
structure Order where
  order_id : Nat
  trader : Nat
  side : Nat
  price : Nat
  size : Nat
  remaining_size : Nat
  time_in_force : Nat
  timestamp : Nat
  next_at_price : Nat
  prev_at_price : Nat
  next_in_book : Nat
  prev_in_book : Nat
deriving DecidableEq, Repr

/-- The all-zero order record; an all-zero slot is a free slot. -/
def zeroOrder : Order :=
  ⟨0, 0, 0, 0, 0, 0, 0, 0, 0, 0, 0, 0⟩

/-- Order::new (orderbook.rs): remaining_size starts at size, links zeroed. -/
def Order.new (oid trader side price size tif timestamp : Nat) : Order :=
  ⟨oid, trader, side, price, size, size, tif, timestamp, 0, 0, 0, 0⟩

/-- Order::is_bid. -/
def Order.isBid (o : Order) : Prop := o.side = 0

/-- Order::is_ask. -/
def Order.isAsk (o : Order) : Prop := o.side = 1

instance (o : Order) : Decidable o.isBid := by unfold Order.isBid; infer_instance
instance (o : Order) : Decidable o.isAsk := by unfold Order.isAsk; infer_instance

/-- Order::can_match (orderbook.rs lines 144-154): self-trade returns false,
a bid matches an ask when bid.price ≥ ask.price, symmetric for asks, and
same-side orders never match. -/
def Order.canMatch (o other : Order) : Bool :=
  if o.trader = other.trader then false
  else if o.isBid ∧ other.isAsk then decide (other.price ≤ o.price)
  else if o.isAsk ∧ other.isBid then decide (o.price ≤ other.price)
  else false

/-- Order::fill (orderbook.rs lines 157-166): requires fill_size ≤
remaining_size (InvalidOrderParams) then checked-subtracts it. -/
def Order.fillBy (o : Order) (fillSize : Nat) : Except DexError Order :=
  if fillSize ≤ o.remaining_size then
    match checkedSub o.remaining_size fillSize with
    | some r => Except.ok { o with remaining_size := r }
    | none => Except.error DexError.MathUnderflow
  else Except.error DexError.InvalidOrderParams

/-- Order::is_filled. -/
def Order.isFilled (o : Order) : Prop := o.remaining_size = 0

instance (o : Order) : Decidable o.isFilled := by unfold Order.isFilled; infer_instance

/-- Orderbook account header (orderbook.rs, struct Orderbook). -/
structure Orderbook where
  market : Nat
  best_bid : Nat
  best_ask : Nat
  order_count : Nat
  free_list_head : Nat
deriving DecidableEq, Repr

/-- Orderbook::MAX_ORDERS. -/
def MAX_ORDERS : Nat := 1000

/-- Read a slot of the slab; index past the end of the account data
corresponds to the out-of-bounds byte-range check of the source. -/
def slotGet (data : List Order) (slot : Nat) : Order :=
  data.getD slot zeroOrder

/-- Orderbook::get_order (orderbook.rs lines 226-242): none when the slot
index is out of range, past the account data, or the slot is all zero. -/
def getOrder (data : List Order) (slot : Nat) : Option Order :=
  if slot < MAX_ORDERS ∧ slot < data.length then
    if slotGet data slot = zeroOrder then none else some (slotGet data slot)
  else none

/-- Orderbook::set_order (orderbook.rs lines 245-260). -/
def setOrder (data : List Order) (slot : Nat) (o : Order) :
    Except DexError (List Order) :=
  if slot < MAX_ORDERS then
    if slot < data.length then Except.ok (data.set slot o)
    else Except.error DexError.OrderbookFull
  else Except.error DexError.OrderbookFull

/-- Value of the free-list link stored in the first 8 bytes of a slot
(the low half of the order_id field). -/
def linkOf (data : List Order) (slot : Nat) : Nat :=
  (slotGet data slot).order_id % 2 ^ 64

/-- First all-zero slot within bounds, as scanned by allocate_slot. -/
def firstZeroSlot (data : List Order) : Option Nat :=
  (List.range MAX_ORDERS).find?
    (fun i => decide (i < data.length ∧ slotGet data i = zeroOrder))

/-- Orderbook::allocate_slot (orderbook.rs lines 263-297): pop the free
list when its head is a plausible slot index, otherwise scan for the
first all-zero slot; OrderbookFull when saturated. -/
def allocateSlot (ob : Orderbook) (data : List Order) :
    Except DexError (Orderbook × Nat) :=
  if ob.free_list_head ≠ 0 ∧ ob.free_list_head < MAX_ORDERS then
    let slot := ob.free_list_head
    if slot < data.length then
      Except.ok ({ ob with free_list_head := linkOf data slot }, slot)
    else
      Except.ok ({ ob with free_list_head := 0 }, slot)
  else
    if ob.order_count < MAX_ORDERS then
      match firstZeroSlot data with
      | some i => Except.ok (ob, i)
      | none => Except.error DexError.OrderbookFull
    else Except.error DexError.OrderbookFull

/-- Orderbook::free_slot (orderbook.rs lines 300-323): zero the slot, then
when the free list is non-empty record the previous head in the first
8 bytes of the slot, and point the head at the slot. -/
def freeSlot (ob : Orderbook) (data : List Order) (slot : Nat) :
    Except DexError (Orderbook × List Order) :=
  if slot < MAX_ORDERS then
    if slot < data.length then
      let cleared :=
        if ob.free_list_head ≠ 0 then
          { zeroOrder with order_id := ob.free_list_head }
        else zeroOrder
      Except.ok ({ ob with free_list_head := slot }, data.set slot cleared)
    else Except.error DexError.InvalidOrderbookState
  else Except.error DexError.InvalidOrderbookState

/-- One scan step of find_best_bid: keep the strictly highest-priced live
bid seen so far (accumulator carries best_price and best slot/order). -/
def bestBidStep (data : List Order) (acc : Nat × Option (Nat × Order)) (i : Nat) :
    Nat × Option (Nat × Order) :=
  match getOrder data i with
  | some o =>
      if o.isBid ∧ 0 < o.remaining_size ∧ acc.1 < o.price then (o.price, some (i, o))
      else acc
  | none => acc

/-- Orderbook::find_best_bid (orderbook.rs lines 342-367): early out when
the header says no bids, otherwise scan every slot. -/
def findBestBid (ob : Orderbook) (data : List Order) : Option (Nat × Order) :=
  if ob.best_bid = 0 then none
  else ((List.range MAX_ORDERS).foldl (bestBidStep data) (0, none)).2

/-- One scan step of find_best_ask: keep the strictly lowest-priced live ask. -/
def bestAskStep (data : List Order) (acc : Nat × Option (Nat × Order)) (i : Nat) :
    Nat × Option (Nat × Order) :=
  match getOrder data i with
  | some o =>
      if o.isAsk ∧ 0 < o.remaining_size ∧ o.price < acc.1 then (o.price, some (i, o))
      else acc
  | none => acc

/-- Orderbook::find_best_ask (orderbook.rs lines 370-392): early out when
the header holds the u64::MAX sentinel, otherwise scan every slot. -/
def findBestAsk (ob : Orderbook) (data : List Order) : Option (Nat × Order) :=
  if ob.best_ask = U64MAX then none
  else ((List.range MAX_ORDERS).foldl (bestAskStep data) (U64MAX, none)).2

/-- One scan step of update_best_prices over the accumulator
(best_bid, best_ask). -/
def bestPricesStep (data : List Order) (acc : Nat × Nat) (i : Nat) : Nat × Nat :=
  match getOrder data i with
  | some o =>
      if 0 < o.remaining_size then
        if o.isBid ∧ acc.1 < o.price then (o.price, acc.2)
        else if o.isAsk ∧ o.price < acc.2 then (acc.1, o.price)
        else acc
      else acc
  | none => acc

/-- Orderbook::update_best_prices (orderbook.rs lines 395-413): recompute
both best prices by a full scan; a final best_ask of u64::MAX is stored
as 0. -/
def updateBestPrices (ob : Orderbook) (data : List Order) : Orderbook :=
  let r := (List.range MAX_ORDERS).foldl (bestPricesStep data) (0, U64MAX)
  { ob with best_bid := r.1, best_ask := if r.2 = U64MAX then 0 else r.2 }

/-- Market account (state.rs, struct Market), restricted to the fields the
modelled handlers read or write; the account address (Anchor key) is
modelled by the key field. -/
structure Market where
  key : Nat
  market_id : Nat
  base_mint : Nat
  quote_mint : Nat
  base_vault : Nat
  quote_vault : Nat
  tick_size : Nat
  lot_size : Nat
  authority : Nat
  paused : Bool
  best_bid : Nat
  best_ask : Nat
  order_count : Nat
  total_volume : Nat
deriving DecidableEq, Repr

/-- Market::is_valid_tick (state.rs). -/
def Market.isValidTick (m : Market) (price : Nat) : Prop :=
  m.tick_size ≤ price ∧ price % m.tick_size = 0

/-- Market::is_valid_lot (state.rs). -/
def Market.isValidLot (m : Market) (size : Nat) : Prop :=
  m.lot_size ≤ size ∧ size % m.lot_size = 0

instance (m : Market) (p : Nat) : Decidable (m.isValidTick p) := by
  unfold Market.isValidTick; infer_instance

instance (m : Market) (s : Nat) : Decidable (m.isValidLot s) := by
  unfold Market.isValidLot; infer_instance

/-- Global configuration (state.rs, struct GlobalConfig), fee fields only. -/
structure GlobalConfig where
  authority : Nat
  fee_recipient : Nat
  maker_fee_bps : Nat
  taker_fee_bps : Nat
deriving DecidableEq, Repr

/-- Per-(trader, market) ledger entry (state.rs, struct TraderState). -/
structure TraderState where
  trader : Nat
  market : Nat
  base_available : Nat
  quote_available : Nat
  base_locked : Nat
  quote_locked : Nat
  open_order_count : Nat
deriving DecidableEq, Repr

/-- TraderState::lock_base (state.rs): requires base_available ≥ amount
(InsufficientFunds), then checked moves amount from available to locked. -/
def TraderState.lockBase (ts : TraderState) (amount : Nat) :
    Except DexError TraderState :=
  if amount ≤ ts.base_available then
    match checkedSub ts.base_available amount with
    | none => Except.error DexError.MathUnderflow
    | some av =>
      match checkedAdd64 ts.base_locked amount with
      | none => Except.error DexError.MathOverflow
      | some lk => Except.ok { ts with base_available := av, base_locked := lk }
  else Except.error DexError.InsufficientFunds

/-- TraderState::lock_quote (state.rs). -/
def TraderState.lockQuote (ts : TraderState) (amount : Nat) :
    Except DexError TraderState :=
  if amount ≤ ts.quote_available then
    match checkedSub ts.quote_available amount with
    | none => Except.error DexError.MathUnderflow
    | some av =>
      match checkedAdd64 ts.quote_locked amount with
      | none => Except.error DexError.MathOverflow
      | some lk => Except.ok { ts with quote_available := av, quote_locked := lk }
  else Except.error DexError.InsufficientFunds

/-- TraderState::unlock_base (state.rs): requires base_locked ≥ amount
(InvalidAccountState), then checked moves amount back to available. -/
def TraderState.unlockBase (ts : TraderState) (amount : Nat) :
    Except DexError TraderState :=
  if amount ≤ ts.base_locked then
    match checkedSub ts.base_locked amount with
    | none => Except.error DexError.MathUnderflow
    | some lk =>
      match checkedAdd64 ts.base_available amount with
      | none => Except.error DexError.MathOverflow
      | some av => Except.ok { ts with base_available := av, base_locked := lk }
  else Except.error DexError.InvalidAccountState

/-- TraderState::unlock_quote (state.rs). -/
def TraderState.unlockQuote (ts : TraderState) (amount : Nat) :
    Except DexError TraderState :=
  if amount ≤ ts.quote_locked then
    match checkedSub ts.quote_locked amount with
    | none => Except.error DexError.MathUnderflow
    | some lk =>
      match checkedAdd64 ts.quote_available amount with
      | none => Except.error DexError.MathOverflow
      | some av => Except.ok { ts with quote_available := av, quote_locked := lk }
  else Except.error DexError.InvalidAccountState

/-- Host clock (Solana Clock sysvar): unix timestamp seconds and slot. -/
structure Clock where
  unix_timestamp : Nat
  slot : Nat
deriving DecidableEq, Repr

/-- Instruction parameters of place_order (place_order.rs). -/
structure PlaceOrderParams where
  side : Nat
  price : Nat
  size : Nat
  time_in_force : Nat
deriving DecidableEq, Repr

/-- Order id derivation of place_order.rs lines 108-112:
timestamp * 1_000_000 + slot, checked in u128. -/
def deriveOrderId (clock : Clock) : Option Nat :=
  checkedMul128 clock.unix_timestamp 1000000 >>= fun v =>
    checkedAdd128 v clock.slot

/-- Result record of a successful place_order. -/
structure PlaceResult where
  market : Market
  ob : Orderbook
  data : List Order
  traderState : TraderState
  order_id : Nat
deriving DecidableEq, Repr

/-- Collateral lock of place_order.rs lines 94-105: a bid locks
price * size / lot_size quote (checked), an ask locks size base. -/
def lockCollateral (m : Market) (ts : TraderState) (p : PlaceOrderParams) :
    Except DexError TraderState :=
  if p.side = 0 then
    match checkedMul64 p.price p.size >>= fun v => checkedDiv v m.lot_size with
    | none => Except.error DexError.MathOverflow
    | some q => ts.lockQuote q
  else ts.lockBase p.size

/-- Validation prefix of place_order.rs lines 46-89: pause check, side and
time-in-force decoding, tick/lot/size validation, and the PostOnly cross
check against the header best prices. -/
def placeOrderValidate (market : Market) (ob : Orderbook) (p : PlaceOrderParams) :
    Except DexError Unit :=
  if market.paused then Except.error DexError.MarketPaused
  else if ¬ (p.side = 0 ∨ p.side = 1) then Except.error DexError.InvalidOrderParams
  else if ¬ (p.time_in_force ≤ 3) then Except.error DexError.InvalidTimeInForce
  else if ¬ market.isValidTick p.price then Except.error DexError.PriceNotOnTick
  else if ¬ market.isValidLot p.size then Except.error DexError.OrderSizeTooSmall
  else if ¬ (market.lot_size ≤ p.size) then Except.error DexError.OrderSizeTooSmall
  else if ¬ (p.size ≤ 1000000000000) then Except.error DexError.OrderSizeTooLarge
  else if p.time_in_force = 3 ∧ p.side = 0 ∧ 0 < ob.best_ask ∧ ob.best_ask ≤ p.price then
    Except.error DexError.PostOnlyWouldCross
  else if p.time_in_force = 3 ∧ p.side = 1 ∧ 0 < ob.best_bid ∧ p.price ≤ ob.best_bid then
    Except.error DexError.PostOnlyWouldCross
  else Except.ok ()

/-- Handler of the place_order instruction (place_order.rs lines 42-179):
validation, PostOnly cross check against the header best prices,
collateral lock (bids lock price*size/lot_size quote, asks lock size
base), order id derivation, slab insertion, metadata update.  No
matching happens inline for any time in force: the IOC/FOK branch at
lines 172-176 is an empty placeholder. -/
def placeOrderHandler (market : Market) (ob : Orderbook) (data : List Order)
    (traderState : TraderState) (trader : Nat) (clock : Clock)
    (p : PlaceOrderParams) : Except DexError PlaceResult :=
  match placeOrderValidate market ob p with
  | Except.error e => Except.error e
  | Except.ok _ =>
    match lockCollateral market traderState p with
    | Except.error e => Except.error e
    | Except.ok ts1 =>
      match deriveOrderId clock with
      | none => Except.error DexError.MathOverflow
      | some oid =>
        match allocateSlot ob data with
        | Except.error e => Except.error e
        | Except.ok (ob1, slot) =>
          match setOrder data slot
              (Order.new oid trader p.side p.price p.size p.time_in_force
                clock.unix_timestamp) with
          | Except.error e => Except.error e
          | Except.ok data1 =>
            match checkedAdd64 ob1.order_count 1 with
            | none => Except.error DexError.MathOverflow
            | some cnt =>
              match checkedAdd16 traderState.open_order_count 1 with
              | none => Except.error DexError.MathOverflow
              | some ooc =>
                Except.ok
                  { market :=
                      { market with
                          best_bid := (updateBestPrices
                            { ob1 with order_count := cnt, market := market.key }
                            data1).best_bid,
                          best_ask := (updateBestPrices
                            { ob1 with order_count := cnt, market := market.key }
                            data1).best_ask,
                          order_count := (updateBestPrices
                            { ob1 with order_count := cnt, market := market.key }
                            data1).order_count },
                    ob := updateBestPrices
                      { ob1 with order_count := cnt, market := market.key } data1,
                    data := data1,
                    traderState := { ts1 with open_order_count := ooc },
                    order_id := oid }

/-- The slot scan of cancel_order (cancel_order.rs lines 52-61): first slot
whose live order has the given id and owner. -/
def findOrderLoop (data : List Order) (traderKey oid : Nat) :
    List Nat → Option (Nat × Order)
  | [] => none
  | i :: rest =>
    match getOrder data i with
    | some o =>
        if o.order_id = oid ∧ o.trader = traderKey then some (i, o)
        else findOrderLoop data traderKey oid rest
    | none => findOrderLoop data traderKey oid rest

/-- Scan of the whole slab for cancel_order. -/
def findOrderForCancel (data : List Order) (traderKey oid : Nat) :
    Option (Nat × Order) :=
  findOrderLoop data traderKey oid (List.range MAX_ORDERS)

/-- Collateral unlock of cancel_order.rs lines 73-86: a bid unlocks
price * remaining_size / lot_size quote (checked), an ask unlocks
remaining_size base. -/
def unlockCollateral (m : Market) (ts : TraderState) (order : Order) :
    Except DexError TraderState :=
  if order.isBid then
    match checkedMul64 order.price order.remaining_size >>= fun v =>
        checkedDiv v m.lot_size with
    | none => Except.error DexError.MathOverflow
    | some q => ts.unlockQuote q
  else ts.unlockBase order.remaining_size

/-- Result record of a successful cancel_order. -/
structure CancelResult where
  market : Market
  ob : Orderbook
  data : List Order
  traderState : TraderState
deriving DecidableEq, Repr

/-- Handler of the cancel_order instruction (cancel_order.rs lines 34-124):
locate the caller's order, reject filled orders, unlock the collateral
computed from remaining_size, free the slot and refresh the metadata. -/
def cancelOrderHandler (market : Market) (ob : Orderbook) (data : List Order)
    (traderState : TraderState) (trader : Nat) (oid : Nat) :
    Except DexError CancelResult :=
  match findOrderForCancel data trader oid with
  | none => Except.error DexError.OrderNotFound
  | some (slot, order) =>
    if order.isFilled then Except.error DexError.OrderAlreadyFilled
    else
      match unlockCollateral market traderState order with
      | Except.error e => Except.error e
      | Except.ok ts1 =>
        match freeSlot ob data slot with
        | Except.error e => Except.error e
        | Except.ok (ob1, data1) =>
          match checkedSub ob1.order_count 1 with
          | none => Except.error DexError.MathUnderflow
          | some cnt =>
            match checkedSub traderState.open_order_count 1 with
            | none => Except.error DexError.MathUnderflow
            | some ooc =>
              Except.ok
                { market :=
                    { market with
                        best_bid :=
                          (updateBestPrices { ob1 with order_count := cnt } data1).best_bid,
                        best_ask :=
                          (updateBestPrices { ob1 with order_count := cnt } data1).best_ask,
                        order_count :=
                          (updateBestPrices { ob1 with order_count := cnt } data1).order_count },
                  ob := updateBestPrices { ob1 with order_count := cnt } data1,
                  data := data1,
                  traderState := { ts1 with open_order_count := ooc } }

/-- Fee term of match_orders.rs lines 93-115: checked quote*bps/10000 with
unwrap_or(0), so an overflowing fee silently becomes 0. -/
def feeCalc (quoteAmount bps : Nat) : Nat :=
  (checkedMul64 quoteAmount bps >>= fun v => checkedDiv v 10000).getD 0

/-- One fill of the matching loop.  The first nine fields are the values of
the OrderMatched event (match_orders.rs lines 148-158) plus the computed
quote_amount and the maker/taker fees of lines 86-115; the remaining
fields record, for specification purposes, the maker designation flag
is_bid_maker of line 92 and the limit price, timestamp and time in force
of the two matched orders at the time of the match. -/
structure Fill where
  fill_id : Nat
  bid_order_id : Nat
  ask_order_id : Nat
  price : Nat
  size : Nat
  bid_trader : Nat
  ask_trader : Nat
  timestamp : Nat
  quote_amount : Nat
  maker_fee : Nat
  taker_fee : Nat
  is_bid_maker : Bool
  bid_price : Nat
  ask_price : Nat
  bid_timestamp : Nat
  ask_timestamp : Nat
  bid_tif : Nat
  ask_tif : Nat
deriving DecidableEq, Repr

/-- Outcome of one iteration of the matching loop: the loop breaks (halt),
the transaction aborts (fail), or a fill is produced (step). -/
inductive MatchStep where
  | halt
  | fail (e : DexError)
  | step (ob : Orderbook) (data : List Order) (f : Fill)
deriving Repr

/-- Removal of a fully filled order (match_orders.rs lines 130-142): free
the slot and checked-decrement order_count; a partially filled order is
left in place. -/
def freeIfFilled (ob : Orderbook) (data : List Order) (slot : Nat) (o : Order) :
    Except DexError (Orderbook × List Order) :=
  if o.isFilled then
    match freeSlot ob data slot with
    | Except.error e => Except.error e
    | Except.ok (ob1, data1) =>
      match checkedSub ob1.order_count 1 with
      | none => Except.error DexError.MathUnderflow
      | some c => Except.ok ({ ob1 with order_count := c }, data1)
  else Except.ok (ob, data)

/-- One iteration of the matching loop of match_orders.rs lines 55-164:
select best bid and ask, stop unless they can match, fill both by the
minimum remaining size at price min(bid.price, ask.price), compute
quote amount and fees (the older order by timestamp is maker, ties
making the bid maker), derive the fill id, write back both orders, free
the filled ones decrementing order_count, and refresh best prices. -/
def matchIteration (market : Market) (cfg : GlobalConfig) (clock : Clock)
    (ob : Orderbook) (data : List Order) (iterations : Nat) : MatchStep :=
  match findBestBid ob data with
  | none => MatchStep.halt
  | some (bidSlot, bidOrder) =>
    match findBestAsk ob data with
    | none => MatchStep.halt
    | some (askSlot, askOrder) =>
      if ¬ bidOrder.canMatch askOrder then MatchStep.halt
      else
        match bidOrder.fillBy (min bidOrder.remaining_size askOrder.remaining_size) with
        | Except.error e => MatchStep.fail e
        | Except.ok bidOrder1 =>
          match askOrder.fillBy (min bidOrder.remaining_size askOrder.remaining_size) with
          | Except.error e => MatchStep.fail e
          | Except.ok askOrder1 =>
            match checkedMul64 (min bidOrder.price askOrder.price)
                  (min bidOrder.remaining_size askOrder.remaining_size) >>= fun v =>
                checkedDiv v market.lot_size with
            | none => MatchStep.fail DexError.MathOverflow
            | some quoteAmount =>
              match checkedMul128 clock.unix_timestamp 1000000 >>= fun v =>
                  checkedAdd128 v clock.slot >>= fun w =>
                  checkedAdd128 w iterations with
              | none => MatchStep.fail DexError.MathOverflow
              | some fillId =>
                match setOrder data bidSlot bidOrder1 with
                | Except.error e => MatchStep.fail e
                | Except.ok data1 =>
                  match setOrder data1 askSlot askOrder1 with
                  | Except.error e => MatchStep.fail e
                  | Except.ok data2 =>
                    match freeIfFilled ob data2 bidSlot bidOrder1 with
                    | Except.error e => MatchStep.fail e
                    | Except.ok (obB, dataB) =>
                      match freeIfFilled obB dataB askSlot askOrder1 with
                      | Except.error e => MatchStep.fail e
                      | Except.ok (obD, dataD) =>
                        MatchStep.step (updateBestPrices obD dataD) dataD
                          { fill_id := fillId,
                            bid_order_id := bidOrder1.order_id,
                            ask_order_id := askOrder1.order_id,
                            price := min bidOrder.price askOrder.price,
                            size := min bidOrder.remaining_size askOrder.remaining_size,
                            bid_trader := bidOrder1.trader,
                            ask_trader := askOrder1.trader,
                            timestamp := clock.unix_timestamp,
                            quote_amount := quoteAmount,
                            maker_fee :=
                              if bidOrder.timestamp ≤ askOrder.timestamp then
                                feeCalc quoteAmount cfg.maker_fee_bps
                              else feeCalc quoteAmount cfg.taker_fee_bps,
                            taker_fee :=
                              if bidOrder.timestamp ≤ askOrder.timestamp then
                                feeCalc quoteAmount cfg.taker_fee_bps
                              else feeCalc quoteAmount cfg.maker_fee_bps,
                            is_bid_maker := decide (bidOrder.timestamp ≤ askOrder.timestamp),
                            bid_price := bidOrder.price,
                            ask_price := askOrder.price,
                            bid_timestamp := bidOrder.timestamp,
                            ask_timestamp := askOrder.timestamp,
                            bid_tif := bidOrder.time_in_force,
                            ask_tif := askOrder.time_in_force }

/-- Matching loop of match_orders.rs lines 52-164, with the remaining
iteration budget as fuel (the source loops while
iterations < max_iterations, incrementing iterations as a checked u8). -/
def matchLoop (market : Market) (cfg : GlobalConfig) (clock : Clock) :
    Nat → Nat → Orderbook → List Order → List Fill →
    Except DexError (Orderbook × List Order × List Fill)
  | 0, _, ob, data, fills => Except.ok (ob, data, fills)
  | fuel + 1, iterations, ob, data, fills =>
    match matchIteration market cfg clock ob data iterations with
    | MatchStep.halt => Except.ok (ob, data, fills)
    | MatchStep.fail e => Except.error e
    | MatchStep.step ob1 data1 f =>
      match checkedAdd8 iterations 1 with
      | none => Except.error DexError.MathOverflow
      | some it1 => matchLoop market cfg clock fuel it1 ob1 data1 (fills ++ [f])

/-- Result record of a successful match_orders. -/
structure MatchResult where
  market : Market
  ob : Orderbook
  data : List Order
  fills : List Fill
deriving DecidableEq, Repr

/-- Handler of the match_orders instruction (match_orders.rs lines 34-176):
pause check, matching loop, then the market mirrors the orderbook
header.  The instruction's account context contains no TraderState
account, so no trader balance is read or written. -/
def matchOrdersHandler (market : Market) (cfg : GlobalConfig) (clock : Clock)
    (ob : Orderbook) (data : List Order) (maxIterations : Nat) :
    Except DexError MatchResult :=
  if market.paused then Except.error DexError.MarketPaused
  else
    match matchLoop market cfg clock maxIterations 0 ob data [] with
    | Except.error e => Except.error e
    | Except.ok (ob1, data1, fills) =>
      Except.ok
        { market :=
            { market with
                best_bid := ob1.best_bid,
                best_ask := ob1.best_ask,
                order_count := ob1.order_count },
          ob := ob1,
          data := data1,
          fills := fills }

/-- Handler of the deposit instruction (deposit.rs lines 40-104): positive
amount, mint and vault must belong to the market, then the chosen
available balance is checked-incremented (the token transfer is
external).  A default (all-zero) trader account is stamped with the
trader and market identity. -/
def depositHandler (market : Market) (traderState : TraderState)
    (trader mint vault amount : Nat) : Except DexError TraderState :=
  if ¬ (0 < amount) then Except.error DexError.InvalidOrderParams
  else if ¬ (mint = market.base_mint ∨ mint = market.quote_mint) then
    Except.error DexError.InvalidMint
  else if ¬ (vault = (if mint = market.base_mint then market.base_vault
      else market.quote_vault)) then
    Except.error DexError.InvalidMint
  else
    let ts0 :=
      if traderState.trader = 0 then
        { traderState with trader := trader, market := market.key }
      else traderState
    if mint = market.base_mint then
      match checkedAdd64 ts0.base_available amount with
      | none => Except.error DexError.MathOverflow
      | some v => Except.ok { ts0 with base_available := v }
    else
      match checkedAdd64 ts0.quote_available amount with
      | none => Except.error DexError.MathOverflow
      | some v => Except.ok { ts0 with quote_available := v }

/-- Handler of the withdraw instruction (withdraw.rs lines 44-124): requires
amount > 0 (InvalidOrderParams) before anything else, validates mint and
vault, requires sufficient available balance, then checked-decrements it
(the token transfer is external). -/
def withdrawHandler (market : Market) (traderState : TraderState)
    (mint vault amount : Nat) : Except DexError TraderState :=
  if ¬ (0 < amount) then Except.error DexError.InvalidOrderParams
  else if ¬ (mint = market.base_mint ∨ mint = market.quote_mint) then
    Except.error DexError.InvalidMint
  else if ¬ (vault = (if mint = market.base_mint then market.base_vault
      else market.quote_vault)) then
    Except.error DexError.InvalidMint
  else
    let avail :=
      if mint = market.base_mint then traderState.base_available
      else traderState.quote_available
    if ¬ (amount ≤ avail) then Except.error DexError.InsufficientFunds
    else if mint = market.base_mint then
      match checkedSub traderState.base_available amount with
      | none => Except.error DexError.MathUnderflow
      | some v => Except.ok { traderState with base_available := v }
    else
      match checkedSub traderState.quote_available amount with
      | none => Except.error DexError.MathUnderflow
      | some v => Except.ok { traderState with quote_available := v }

/-- Full observable state of one market: the market account, the orderbook
header and slab, and all trader ledger accounts (keyed by trader
pubkey). -/
structure SysState where
  market : Market
  ob : Orderbook
  data : List Order
  traders : List (Nat × TraderState)
deriving DecidableEq, Repr

/-- All-zero trader ledger account, as an Anchor zero-initialized account. -/
def emptyTraderState : TraderState :=
  ⟨0, 0, 0, 0, 0, 0, 0⟩

/-- Look up a trader ledger account (an absent account reads as all-zero). -/
def getTrader (l : List (Nat × TraderState)) (k : Nat) : TraderState :=
  match l.lookup k with
  | some ts => ts
  | none => emptyTraderState

/-- Store a trader ledger account. -/
def setTrader : List (Nat × TraderState) → Nat → TraderState →
    List (Nat × TraderState)
  | [], k, ts => [(k, ts)]
  | (k', ts') :: rest, k, ts =>
    if k' = k then (k, ts) :: rest else (k', ts') :: setTrader rest k ts

/-- The public operations of the modelled instruction surface. -/
inductive DexOp where
  | placeOp (trader : Nat) (params : PlaceOrderParams) (clock : Clock)
  | cancelOp (trader : Nat) (orderId : Nat)
  | matchOp (maxIterations : Nat) (clock : Clock)
  | depositOp (trader mint vault amount : Nat)
  | withdrawOp (trader mint vault amount : Nat)
deriving DecidableEq, Repr

/-- One transaction: apply an operation to the system state.  An error
models the aborted transaction (no state change, no emitted fills);
only match_orders emits fills. -/
def applyOp (cfg : GlobalConfig) (s : SysState) :
    DexOp → Except DexError (SysState × List Fill)
  | DexOp.placeOp k p clock =>
    match placeOrderHandler s.market s.ob s.data (getTrader s.traders k) k clock p with
    | Except.error e => Except.error e
    | Except.ok r =>
      Except.ok
        ({ market := r.market,
           ob := r.ob,
           data := r.data,
           traders := setTrader s.traders k r.traderState }, [])
  | DexOp.cancelOp k oid =>
    match cancelOrderHandler s.market s.ob s.data (getTrader s.traders k) k oid with
    | Except.error e => Except.error e
    | Except.ok r =>
      Except.ok
        ({ market := r.market,
           ob := r.ob,
           data := r.data,
           traders := setTrader s.traders k r.traderState }, [])
  | DexOp.matchOp maxIter clock =>
    match matchOrdersHandler s.market cfg clock s.ob s.data maxIter with
    | Except.error e => Except.error e
    | Except.ok r =>
      Except.ok
        ({ market := r.market,
           ob := r.ob,
           data := r.data,
           traders := s.traders }, r.fills)
  | DexOp.depositOp k mint vault amount =>
    match depositHandler s.market (getTrader s.traders k) k mint vault amount with
    | Except.error e => Except.error e
    | Except.ok ts =>
      Except.ok ({ s with traders := setTrader s.traders k ts }, [])
  | DexOp.withdrawOp k mint vault amount =>
    match withdrawHandler s.market (getTrader s.traders k) mint vault amount with
    | Except.error e => Except.error e
    | Except.ok ts =>
      Except.ok ({ s with traders := setTrader s.traders k ts }, [])

/-- Run a sequence of transactions; failed transactions leave the state
untouched and emit nothing, as rolled-back Solana transactions. -/
def runOps (cfg : GlobalConfig) : SysState → List DexOp → SysState × List Fill
  | s, [] => (s, [])
  | s, op :: rest =>
    match applyOp cfg s op with
    | Except.ok (s1, fs) =>
      ((runOps cfg s1 rest).1, fs ++ (runOps cfg s1 rest).2)
    | Except.error _ => runOps cfg s rest

instance {ε α : Type} [DecidableEq ε] [DecidableEq α] : DecidableEq (Except ε α) :=
  fun x y =>
    match x, y with
    | Except.ok a, Except.ok b =>
      if h : a = b then isTrue (by rw [h])
      else isFalse (fun he => h (by cases he; rfl))
    | Except.error a, Except.error b =>
      if h : a = b then isTrue (by rw [h])
      else isFalse (fun he => h (by cases he; rfl))
    | Except.ok _, Except.error _ => isFalse (fun he => by cases he)
    | Except.error _, Except.ok _ => isFalse (fun he => by cases he)

/-- Whether a slot holds a live order: a non-free slot whose order has
positive remaining size. -/
def liveAt (data : List Order) (i : Nat) : Bool :=
  match getOrder data i with
  | some o => decide (0 < o.remaining_size)
  | none => false

/-- Number of live orders in the slab. -/
def liveCount (data : List Order) : Nat :=
  (List.range MAX_ORDERS).countP (liveAt data)

/-- Number of non-free slots in the sense of Orderbook::get_order: slots
within the account data that are not all zero.  This is the reading of
the specification sentence that order_count equals the count of
non-free slots. -/
def specNonFreeSlotCount (data : List Order) : Nat :=
  (List.range MAX_ORDERS).countP
    (fun i => decide (i < data.length ∧ ¬ slotGet data i = zeroOrder))

/-- Prices of the live bids, in slot order. -/
def livePricesBid (data : List Order) : List Nat :=
  (List.range MAX_ORDERS).filterMap
    (fun i =>
      match getOrder data i with
      | some o => if o.side = 0 ∧ 0 < o.remaining_size then some o.price else none
      | none => none)

/-- Prices of the live asks, in slot order. -/
def livePricesAsk (data : List Order) : List Nat :=
  (List.range MAX_ORDERS).filterMap
    (fun i =>
      match getOrder data i with
      | some o => if o.side = 1 ∧ 0 < o.remaining_size then some o.price else none
      | none => none)

/-- Specification-side best bid: maximum price over live bids, 0 if none. -/
def specBestBid (data : List Order) : Nat :=
  (livePricesBid data).foldl Nat.max 0

/-- Specification-side best ask: minimum price over the live asks priced
below the u64::MAX sentinel, 0 if there is none.  (An ask priced exactly
u64::MAX is indistinguishable from the empty sentinel to
update_best_prices and is therefore excluded.) -/
def specBestAsk (data : List Order) : Nat :=
  match (livePricesAsk data).filter (fun p => decide (p < U64MAX)) with
  | [] => 0
  | p :: ps => ps.foldl Nat.min p

/-- Price contributed by slot i to the best-bid maximum (0 when the slot
holds no live bid). -/
def bidPriceAt (data : List Order) (i : Nat) : Nat :=
  match getOrder data i with
  | some o => if o.side = 0 ∧ 0 < o.remaining_size then o.price else 0
  | none => 0

/-- Price contributed by slot i to the best-ask minimum (u64::MAX when the
slot holds no live ask). -/
def askPriceAt (data : List Order) (i : Nat) : Nat :=
  match getOrder data i with
  | some o => if o.side = 1 ∧ 0 < o.remaining_size then o.price else U64MAX
  | none => U64MAX

/-- Well-formed free list starting at a given head, with the list of chain
slots made explicit: the chain ends at the 0 sentinel, every chain slot
is a plausible in-bounds index holding no live order, each slot's stored
link points to the rest of the chain, and the chain never repeats a
slot. -/
inductive FreeList (data : List Order) : Nat → List Nat → Prop where
  | nil : FreeList data 0 []
  | cons {s next ns} :
      s ≠ 0 → s < MAX_ORDERS → s < data.length →
      (slotGet data s).remaining_size = 0 →
      linkOf data s = next →
      FreeList data next ns → s ∉ ns →
      FreeList data s (s :: ns)

/-- Orderbook header consistency (property P5 of the specification, with
order_count counting live orders): the header best prices agree with
the live content of the slab and the free list is well formed. -/
def BookInv (ob : Orderbook) (data : List Order) : Prop :=
  ob.best_bid = specBestBid data ∧
  ob.best_ask = specBestAsk data ∧
  ob.order_count = liveCount data ∧
  ∃ ns, FreeList data ob.free_list_head ns

/-- Fee configuration used by the concrete scenarios: maker and taker fee
both 10 bps. -/
def scConfig : GlobalConfig := ⟨9, 8, 10, 10⟩

/-- Fee configuration with distinct maker (10 bps) and taker (20 bps) fees. -/
def potConfig : GlobalConfig := ⟨9, 8, 10, 20⟩

/-- Market of the simple-cross scenario: tick 100, lot 1000, two resting
orders mirrored in the header. -/
def scMarket : Market := ⟨500, 5, 11, 12, 21, 22, 100, 1000, 9, false, 10000, 10000, 2, 0⟩

/-- Orderbook header of the simple-cross scenario. -/
def scOrderbook : Orderbook := ⟨500, 10000, 10000, 2, 0⟩

/-- Resting bid of trader 1: price 10000, size 5000, GTC, timestamp 1. -/
def scBid : Order := ⟨1000000, 1, 0, 10000, 5000, 5000, 0, 1, 0, 0, 0, 0⟩

/-- Resting ask of trader 2: price 10000, size 5000, GTC, timestamp 2. -/
def scAsk : Order := ⟨2000000, 2, 1, 10000, 5000, 5000, 0, 2, 0, 0, 0, 0⟩

/-- Trader ledgers of the simple-cross scenario: trader 1 holds the quote
collateral of the bid locked, trader 2 the base collateral of the ask. -/
def scTraders : List (Nat × TraderState) :=
  [(1, ⟨1, 500, 0, 1000000, 0, 50000, 1⟩), (2, ⟨2, 500, 0, 0, 5000, 0, 1⟩)]

/-- Full system state of the simple-cross scenario. -/
def scState : SysState := ⟨scMarket, scOrderbook, [scBid, scAsk], scTraders⟩

/-- The single fill the matching engine produces on the simple-cross
scenario when invoked at timestamp 3, slot 7. -/
def scFill : Fill :=
  ⟨3000007, 1000000, 2000000, 10000, 5000, 1, 2, 3, 50000, 50, 50, true,
    10000, 10000, 1, 2, 0, 0⟩

/-- Market of the FOK scenario: tick 100, lot 1000, one resting ask of
size 2000 at price 10000 mirrored in the header. -/
def fokMarket : Market := ⟨500, 5, 11, 12, 21, 22, 100, 1000, 9, false, 0, 10000, 1, 0⟩

/-- Orderbook header of the FOK scenario. -/
def fokOrderbook : Orderbook := ⟨500, 0, 10000, 1, 0⟩

/-- Resting ask of trader 2 in the FOK scenario: remaining size 2000 at
price 10000 (the only liquidity at or below 10100). -/
def fokAsk : Order := ⟨7000000, 2, 1, 10000, 2000, 2000, 0, 7, 0, 0, 0, 0⟩

/-- Ledger of trader 5 before the FOK order. -/
def fokTrader : TraderState := ⟨5, 500, 0, 1000000000, 0, 0, 0⟩

/-- The FOK bid of trader 5: price 10100, size 5000, time in force FOK. -/
def fokParams : PlaceOrderParams := ⟨0, 10100, 5000, 2⟩

/-- Empty-market fixture: tick 100, lot 1000, empty book. -/
def emptyMarket : Market := ⟨500, 5, 11, 12, 21, 22, 100, 1000, 9, false, 0, 0, 0, 0⟩

/-- Empty orderbook header. -/
def emptyOrderbook : Orderbook := ⟨500, 0, 0, 0, 0⟩

/-- System state for the slab-reuse scenario of claim C7: empty book with
five slots, trader 1 funded with quote. -/
def slabState : SysState :=
  ⟨emptyMarket, emptyOrderbook, [zeroOrder, zeroOrder, zeroOrder, zeroOrder, zeroOrder],
    [(1, ⟨1, 500, 0, 1000000000, 0, 0, 0⟩)]⟩

/-- Operation sequence of the slab-reuse scenario: trader 1 places three
bids, then cancels the second and the third; the last free_slot links
the freed slot 2 to the previously freed slot 1, leaving a non-zero
free slot. -/
def slabOps : List DexOp :=
  [DexOp.placeOp 1 ⟨0, 10000, 1000, 0⟩ ⟨1, 0⟩,
   DexOp.placeOp 1 ⟨0, 10100, 1000, 0⟩ ⟨2, 0⟩,
   DexOp.placeOp 1 ⟨0, 10200, 1000, 0⟩ ⟨3, 0⟩,
   DexOp.cancelOp 1 2000000,
   DexOp.cancelOp 1 3000000]

/-- Market with tick 1 and lot 1 (both valid create_market parameters). -/
def unitMarket : Market := ⟨500, 5, 11, 12, 21, 22, 1, 1, 9, false, 0, 0, 0, 0⟩

/-- System state for the u64::MAX ask scenario: empty one-slot book on the
tick-1/lot-1 market, trader 1 funded with 10 base units. -/
def maxAskState : SysState :=
  ⟨unitMarket, emptyOrderbook, [zeroOrder], [(1, ⟨1, 500, 10, 0, 0, 0, 0⟩)]⟩

/-- Market of the maker-price scenario: resting bid 10200 (timestamp 1) and
resting ask 10100 (timestamp 2), mirrored in the header. -/
def pxMarket : Market := ⟨500, 5, 11, 12, 21, 22, 100, 1000, 9, false, 10200, 10100, 2, 0⟩

/-- Orderbook header of the maker-price scenario. -/
def pxOrderbook : Orderbook := ⟨500, 10200, 10100, 2, 0⟩

/-- Resting bid of trader 1 in the maker-price scenario: price 10200,
timestamp 1 (the earlier order, hence the maker). -/
def pxBid : Order := ⟨1000000, 1, 0, 10200, 1000, 1000, 0, 1, 0, 0, 0, 0⟩

/-- Resting ask of trader 2 in the maker-price scenario: price 10100,
timestamp 2. -/
def pxAsk : Order := ⟨2000000, 2, 1, 10100, 1000, 1000, 0, 2, 0, 0, 0, 0⟩

/-- System state of the maker-price scenario (trader ledgers funded to
cover the resting orders). -/
def pxState : SysState :=
  ⟨pxMarket, pxOrderbook, [pxBid, pxAsk],
    [(1, ⟨1, 500, 0, 100000000, 0, 10200, 1⟩), (2, ⟨2, 500, 1000, 0, 1000, 0, 1⟩),
     (3, ⟨3, 500, 0, 1000000000, 0, 0, 0⟩), (4, ⟨4, 500, 1000000, 0, 0, 0, 0⟩)]⟩

/-- Operation sequence of the fill-id collision scenario: match the two
resting orders at clock (3, 7), then traders 3 and 4 place a crossing
pair and a second match runs at the same clock (same second, same
slot). -/
def fidOps : List DexOp :=
  [DexOp.matchOp 10 ⟨3, 7⟩,
   DexOp.placeOp 3 ⟨0, 10000, 1000, 0⟩ ⟨3, 7⟩,
   DexOp.placeOp 4 ⟨1, 10000, 1000, 0⟩ ⟨3, 7⟩,
   DexOp.matchOp 10 ⟨3, 7⟩]

/-- System state of the PostOnly-taker scenario: empty two-slot book,
trader 1 funded with quote, trader 2 funded with base. -/
def potState : SysState :=
  ⟨emptyMarket, ⟨500, 0, 0, 0, 0⟩, [zeroOrder, zeroOrder],
    [(1, ⟨1, 500, 0, 100000000, 0, 0, 0⟩), (2, ⟨2, 500, 5000, 0, 0, 0, 0⟩)]⟩

/-- Operation sequence of the PostOnly-taker scenario: trader 2 places a
PostOnly ask at timestamp 5 into the empty book (nothing to cross),
trader 1 places a GTC bid at the same price within the same second,
then match_orders runs. -/
def potOps : List DexOp :=
  [DexOp.placeOp 2 ⟨1, 10000, 1000, 3⟩ ⟨5, 0⟩,
   DexOp.placeOp 1 ⟨0, 10000, 1000, 0⟩ ⟨5, 1⟩,
   DexOp.matchOp 10 ⟨5, 2⟩]

/-- Trader ledger used by the round-trip witness: trader 7 funded with
1000000 quote and 5000 base. -/
def rtTrader : TraderState := ⟨7, 500, 5000, 1000000, 0, 0, 0⟩

theorem checkedAdd64_some {a b v : Nat} (h : checkedAdd64 a b = some v) : v = a + b := by
  unfold checkedAdd64 at h
  split at h
  · exact (Option.some_inj.mp h).symm
  · exact absurd h (by simp)

theorem checkedMul64_some {a b v : Nat} (h : checkedMul64 a b = some v) : v = a * b := by
  unfold checkedMul64 at h
  split at h
  · exact (Option.some_inj.mp h).symm
  · exact absurd h (by simp)

theorem checkedSub_some {a b v : Nat} (h : checkedSub a b = some v) :
    v = a - b ∧ b ≤ a := by
  unfold checkedSub at h
  split at h
  · exact ⟨(Option.some_inj.mp h).symm, by assumption⟩
  · exact absurd h (by simp)

theorem checkedSub_of_le {a b : Nat} (h : b ≤ a) : checkedSub a b = some (a - b) := by
  unfold checkedSub
  simp [h]

theorem checkedDiv_some {a b v : Nat} (h : checkedDiv a b = some v) :
    v = a / b ∧ b ≠ 0 := by
  unfold checkedDiv at h
  split at h
  · exact absurd h (by simp)
  · exact ⟨(Option.some_inj.mp h).symm, by assumption⟩

theorem checkedMul128_some {a b v : Nat} (h : checkedMul128 a b = some v) : v = a * b := by
  unfold checkedMul128 at h
  split at h
  · exact (Option.some_inj.mp h).symm
  · exact absurd h (by simp)

theorem checkedAdd128_some {a b v : Nat} (h : checkedAdd128 a b = some v) : v = a + b := by
  unfold checkedAdd128 at h
  split at h
  · exact (Option.some_inj.mp h).symm
  · exact absurd h (by simp)

theorem checkedAdd16_some {a b v : Nat} (h : checkedAdd16 a b = some v) : v = a + b := by
  unfold checkedAdd16 at h
  split at h
  · exact (Option.some_inj.mp h).symm
  · exact absurd h (by simp)

theorem checkedAdd8_some {a b v : Nat} (h : checkedAdd8 a b = some v) : v = a + b := by
  unfold checkedAdd8 at h
  split at h
  · exact (Option.some_inj.mp h).symm
  · exact absurd h (by simp)

theorem fillBy_ok {o o' : Order} {n : Nat} (h : o.fillBy n = Except.ok o') :
    o' = { o with remaining_size := o.remaining_size - n } ∧ n ≤ o.remaining_size := by
  unfold Order.fillBy at h
  split at h
  · rename_i hle
    rw [checkedSub_of_le hle] at h
    exact ⟨(by cases h; rfl), hle⟩
  · exact absurd h (by simp)

theorem canMatch_true_ne_trader {a b : Order} (h : a.canMatch b = true) :
    a.trader ≠ b.trader := by
  unfold Order.canMatch at h
  intro he
  rw [if_pos he] at h
  cases h

theorem setOrder_ok {data data' : List Order} {slot : Nat} {o : Order}
    (h : setOrder data slot o = Except.ok data') :
    slot < MAX_ORDERS ∧ slot < data.length ∧ data' = data.set slot o := by
  unfold setOrder at h
  split at h
  · split at h
    · exact ⟨by assumption, by assumption, by cases h; rfl⟩
    · exact absurd h (by simp)
  · exact absurd h (by simp)

theorem freeSlot_ok {ob ob' : Orderbook} {data data' : List Order} {slot : Nat}
    (h : freeSlot ob data slot = Except.ok (ob', data')) :
    slot < MAX_ORDERS ∧ slot < data.length ∧
    ob' = { ob with free_list_head := slot } ∧
    data' = data.set slot
      (if ob.free_list_head ≠ 0 then { zeroOrder with order_id := ob.free_list_head }
       else zeroOrder) := by
  unfold freeSlot at h
  split at h
  · split at h
    · exact ⟨by assumption, by assumption, by cases h; exact ⟨rfl, rfl⟩⟩
    · exact absurd h (by simp)
  · exact absurd h (by simp)

theorem slotGet_set_self {data : List Order} {s : Nat} {o : Order}
    (h : s < data.length) : slotGet (data.set s o) s = o := by
  unfold slotGet
  rw [List.getD_eq_getElem?_getD, List.getElem?_set_self', List.getElem?_eq_getElem h]
  rfl

theorem slotGet_set_ne {data : List Order} {s j : Nat} {o : Order}
    (h : s ≠ j) : slotGet (data.set s o) j = slotGet data j := by
  unfold slotGet
  rw [List.getD_eq_getElem?_getD, List.getD_eq_getElem?_getD, List.getElem?_set_ne h]

theorem getOrder_set_ne {data : List Order} {s j : Nat} {o : Order}
    (h : s ≠ j) : getOrder (data.set s o) j = getOrder data j := by
  unfold getOrder
  rw [List.length_set, slotGet_set_ne h]

theorem getOrder_set_self {data : List Order} {s : Nat} {o : Order}
    (hs : s < MAX_ORDERS) (hlen : s < data.length) (ho : o ≠ zeroOrder) :
    getOrder (data.set s o) s = some o := by
  unfold getOrder
  rw [List.length_set, slotGet_set_self hlen]
  simp [hs, hlen, ho]

theorem getOrder_some {data : List Order} {slot : Nat} {o : Order}
    (h : getOrder data slot = some o) :
    slot < MAX_ORDERS ∧ slot < data.length ∧ slotGet data slot = o ∧ o ≠ zeroOrder := by
  unfold getOrder at h
  split at h
  · rename_i hb
    split at h
    · exact absurd h (by simp)
    · exact ⟨hb.1, hb.2, Option.some_inj.mp h, by
        rename_i hz
        intro he
        exact hz ((Option.some_inj.mp h).trans he ▸ rfl)⟩
  · exact absurd h (by simp)

theorem bestBid_fold_inv (data : List Order) :
    ∀ (l : List Nat) (acc : Nat × Option (Nat × Order)),
      (∀ s o, acc.2 = some (s, o) →
        getOrder data s = some o ∧ o.side = 0 ∧ 0 < o.remaining_size) →
      ∀ s o, (l.foldl (bestBidStep data) acc).2 = some (s, o) →
        getOrder data s = some o ∧ o.side = 0 ∧ 0 < o.remaining_size := by
  intro l
  induction l with
  | nil => intro acc hacc s o h; exact hacc s o h
  | cons i rest ih =>
    intro acc hacc s o h
    refine ih (bestBidStep data acc i) ?_ s o h
    intro s' o' hacc'
    unfold bestBidStep at hacc'
    split at hacc'
    · rename_i ord hord
      split at hacc'
      · rename_i hcond
        obtain ⟨h1, h2⟩ := Prod.mk.inj (Option.some_inj.mp hacc')
        subst h1; subst h2
        exact ⟨hord, hcond.1, hcond.2.1⟩
      · exact hacc s' o' hacc'
    · exact hacc s' o' hacc'

theorem findBestBid_some {ob : Orderbook} {data : List Order} {s : Nat} {o : Order}
    (h : findBestBid ob data = some (s, o)) :
    getOrder data s = some o ∧ o.side = 0 ∧ 0 < o.remaining_size := by
  unfold findBestBid at h
  split at h
  · exact absurd h (by simp)
  · exact bestBid_fold_inv data (List.range MAX_ORDERS) (0, none) (by simp) s o h

theorem bestAsk_fold_inv (data : List Order) :
    ∀ (l : List Nat) (acc : Nat × Option (Nat × Order)),
      (∀ s o, acc.2 = some (s, o) →
        getOrder data s = some o ∧ o.side = 1 ∧ 0 < o.remaining_size) →
      ∀ s o, (l.foldl (bestAskStep data) acc).2 = some (s, o) →
        getOrder data s = some o ∧ o.side = 1 ∧ 0 < o.remaining_size := by
  intro l
  induction l with
  | nil => intro acc hacc s o h; exact hacc s o h
  | cons i rest ih =>
    intro acc hacc s o h
    refine ih (bestAskStep data acc i) ?_ s o h
    intro s' o' hacc'
    unfold bestAskStep at hacc'
    split at hacc'
    · rename_i ord hord
      split at hacc'
      · rename_i hcond
        obtain ⟨h1, h2⟩ := Prod.mk.inj (Option.some_inj.mp hacc')
        subst h1; subst h2
        exact ⟨hord, hcond.1, hcond.2.1⟩
      · exact hacc s' o' hacc'
    · exact hacc s' o' hacc'

theorem findBestAsk_some {ob : Orderbook} {data : List Order} {s : Nat} {o : Order}
    (h : findBestAsk ob data = some (s, o)) :
    getOrder data s = some o ∧ o.side = 1 ∧ 0 < o.remaining_size := by
  unfold findBestAsk at h
  split at h
  · exact absurd h (by simp)
  · exact bestAsk_fold_inv data (List.range MAX_ORDERS) (U64MAX, none) (by simp) s o h

theorem fillId_chain_some {ts slot iters v : Nat}
    (h : (checkedMul128 ts 1000000 >>= fun a => checkedAdd128 a slot >>= fun w =>
      checkedAdd128 w iters) = some v) :
    v = ts * 1000000 + slot + iters := by
  rcases Option.bind_eq_some.mp h with ⟨a, ha, h2⟩
  rcases Option.bind_eq_some.mp h2 with ⟨w, hw, h3⟩
  have e1 := checkedMul128_some ha
  have e2 := checkedAdd128_some hw
  have e3 := checkedAdd128_some h3
  omega

/-- Characterization of a productive matching iteration: the fill is built
from the best bid and best ask, which can match, at price
min(bid.price, ask.price), with the maker flag set from the timestamp
comparison and the fill id derived from clock and iteration counter. -/
theorem matchIteration_step_spec {m : Market} {cfg : GlobalConfig} {clock : Clock}
    {ob : Orderbook} {data : List Order} {iters : Nat} {ob1 : Orderbook}
    {data1 : List Order} {f : Fill}
    (h : matchIteration m cfg clock ob data iters = MatchStep.step ob1 data1 f) :
    ∃ bidSlot bidOrder askSlot askOrder,
      findBestBid ob data = some (bidSlot, bidOrder) ∧
      findBestAsk ob data = some (askSlot, askOrder) ∧
      bidOrder.canMatch askOrder = true ∧
      f.price = min bidOrder.price askOrder.price ∧
      f.bid_price = bidOrder.price ∧ f.ask_price = askOrder.price ∧
      f.bid_trader = bidOrder.trader ∧ f.ask_trader = askOrder.trader ∧
      f.is_bid_maker = decide (bidOrder.timestamp ≤ askOrder.timestamp) ∧
      f.bid_timestamp = bidOrder.timestamp ∧ f.ask_timestamp = askOrder.timestamp ∧
      f.bid_tif = bidOrder.time_in_force ∧ f.ask_tif = askOrder.time_in_force ∧
      f.fill_id = clock.unix_timestamp * 1000000 + clock.slot + iters := by
  unfold matchIteration at h
  split at h
  · exact MatchStep.noConfusion h
  rename_i pb hfb
  split at h
  · exact MatchStep.noConfusion h
  rename_i pa hfa
  split at h
  · exact MatchStep.noConfusion h
  rename_i hcm
  split at h
  · exact MatchStep.noConfusion h
  rename_i bidOrder1 hfill1
  split at h
  · exact MatchStep.noConfusion h
  rename_i askOrder1 hfill2
  split at h
  · exact MatchStep.noConfusion h
  rename_i quoteAmount hquote
  split at h
  · exact MatchStep.noConfusion h
  rename_i fillId hfid
  split at h
  · exact MatchStep.noConfusion h
  rename_i dataA hset1
  split at h
  · exact MatchStep.noConfusion h
  rename_i dataB hset2
  split at h
  · exact MatchStep.noConfusion h
  rename_i pB hfree1
  split at h
  · exact MatchStep.noConfusion h
  rename_i pD hfree2
  obtain ⟨e1, e2, e3⟩ := MatchStep.step.inj h
  obtain ⟨hb1, -⟩ := fillBy_ok hfill1
  obtain ⟨ha1, -⟩ := fillBy_ok hfill2
  subst hb1; subst ha1
  refine ⟨_, _, _, _, hfb, hfa, Bool.of_not_eq_false (fun hh => hcm (by simp [hh])),
    ?_, ?_, ?_, ?_, ?_, ?_, ?_, ?_, ?_, ?_, ?_⟩
  all_goals simp only [← e3]
  all_goals first
    | rfl
    | exact fillId_chain_some hfid

theorem checkedAdd64_some_bound {a b v : Nat} (h : checkedAdd64 a b = some v) :
    a + b ≤ U64MAX := by
  unfold checkedAdd64 at h
  split at h
  · assumption
  · exact absurd h (by simp)

theorem checkedAdd16_some_bound {a b v : Nat} (h : checkedAdd16 a b = some v) :
    a + b ≤ U16MAX := by
  unfold checkedAdd16 at h
  split at h
  · assumption
  · exact absurd h (by simp)

/-- Characterization of a successful validation prefix of place_order. -/
theorem placeOrderValidate_ok {m : Market} {ob : Orderbook} {p : PlaceOrderParams}
    {u : Unit} (h : placeOrderValidate m ob p = Except.ok u) :
    m.paused = false ∧ (p.side = 0 ∨ p.side = 1) ∧ p.time_in_force ≤ 3 ∧
    m.isValidTick p.price ∧ m.isValidLot p.size ∧ m.lot_size ≤ p.size ∧
    p.size ≤ 1000000000000 ∧
    ¬ (p.time_in_force = 3 ∧ p.side = 0 ∧ 0 < ob.best_ask ∧ ob.best_ask ≤ p.price) ∧
    ¬ (p.time_in_force = 3 ∧ p.side = 1 ∧ 0 < ob.best_bid ∧ p.price ≤ ob.best_bid) := by
  unfold placeOrderValidate at h
  split at h
  · exact Except.noConfusion h
  rename_i hpaused
  split at h
  · exact Except.noConfusion h
  rename_i hside
  split at h
  · exact Except.noConfusion h
  rename_i htif
  split at h
  · exact Except.noConfusion h
  rename_i htick
  split at h
  · exact Except.noConfusion h
  rename_i hlot
  split at h
  · exact Except.noConfusion h
  rename_i hlotle
  split at h
  · exact Except.noConfusion h
  rename_i hsize
  split at h
  · exact Except.noConfusion h
  rename_i hpo1
  split at h
  · exact Except.noConfusion h
  rename_i hpo2
  exact ⟨Bool.not_eq_true _ ▸ hpaused, not_not.mp hside, not_not.mp htif,
    not_not.mp htick, not_not.mp hlot, not_not.mp hlotle, not_not.mp hsize,
    hpo1, hpo2⟩

/-- A crossing PostOnly order fails validation with PostOnlyWouldCross. -/
theorem placeOrderValidate_postOnly_cross {m : Market} {ob : Orderbook}
    {p : PlaceOrderParams}
    (hpaused : m.paused = false) (hside : p.side = 0 ∨ p.side = 1)
    (htif : p.time_in_force = 3)
    (htick : m.isValidTick p.price) (hlot : m.isValidLot p.size)
    (hlotle : m.lot_size ≤ p.size) (hsize : p.size ≤ 1000000000000)
    (hcross : (p.side = 0 ∧ 0 < ob.best_ask ∧ ob.best_ask ≤ p.price) ∨
      (p.side = 1 ∧ 0 < ob.best_bid ∧ p.price ≤ ob.best_bid)) :
    placeOrderValidate m ob p = Except.error DexError.PostOnlyWouldCross := by
  unfold placeOrderValidate
  rw [if_neg (by simp [hpaused]), if_neg (not_not_intro hside),
    if_neg (not_not_intro (htif ▸ Nat.le_refl 3)),
    if_neg (not_not_intro htick), if_neg (not_not_intro hlot),
    if_neg (not_not_intro hlotle), if_neg (not_not_intro hsize)]
  rcases hcross with hb | ha
  · rw [if_pos ⟨htif, hb.1, hb.2.1, hb.2.2⟩]
  · rw [if_neg (fun hh => by omega), if_pos ⟨htif, ha.1, ha.2.1, ha.2.2⟩]

/-- A failing validation prefix makes the whole place_order fail with the
same error. -/
theorem placeOrderHandler_validate_error {m : Market} {ob : Orderbook}
    {data : List Order} {ts : TraderState} {k : Nat} {clock : Clock}
    {p : PlaceOrderParams} {e : DexError}
    (h : placeOrderValidate m ob p = Except.error e) :
    placeOrderHandler m ob data ts k clock p = Except.error e := by
  unfold placeOrderHandler
  rw [h]

/-- Characterization of a successful place_order: the validations passed,
collateral was locked, a slot was allocated, the new order was written
into it, and the header, market mirror and trader ledger are the
corresponding updates. -/
theorem placeOrder_ok_spec {m : Market} {ob : Orderbook} {data : List Order}
    {ts : TraderState} {k : Nat} {clock : Clock} {p : PlaceOrderParams}
    {r : PlaceResult}
    (h : placeOrderHandler m ob data ts k clock p = Except.ok r) :
    m.paused = false ∧ (p.side = 0 ∨ p.side = 1) ∧ p.time_in_force ≤ 3 ∧
    m.isValidTick p.price ∧ m.isValidLot p.size ∧ m.lot_size ≤ p.size ∧
    p.size ≤ 1000000000000 ∧
    deriveOrderId clock = some r.order_id ∧
    ∃ ob1 slot ts1,
      allocateSlot ob data = Except.ok (ob1, slot) ∧
      slot < MAX_ORDERS ∧ slot < data.length ∧
      lockCollateral m ts p = Except.ok ts1 ∧
      r.data = data.set slot
        (Order.new r.order_id k p.side p.price p.size p.time_in_force
          clock.unix_timestamp) ∧
      r.ob = updateBestPrices
        { ob1 with order_count := ob1.order_count + 1, market := m.key } r.data ∧
      r.market =
        { m with
            best_bid := r.ob.best_bid,
            best_ask := r.ob.best_ask,
            order_count := r.ob.order_count } ∧
      r.traderState = { ts1 with open_order_count := ts.open_order_count + 1 } ∧
      ob1.order_count + 1 ≤ U64MAX ∧ ts.open_order_count + 1 ≤ U16MAX := by
  unfold placeOrderHandler at h
  split at h
  · exact Except.noConfusion h
  rename_i u hval
  split at h
  · exact Except.noConfusion h
  rename_i ts1 hlock
  split at h
  · exact Except.noConfusion h
  rename_i oid hoid
  split at h
  · exact Except.noConfusion h
  rename_i ob1 slot halloc
  split at h
  · exact Except.noConfusion h
  rename_i data1 hset
  split at h
  · exact Except.noConfusion h
  rename_i cnt hcnt
  split at h
  · exact Except.noConfusion h
  rename_i ooc hooc
  obtain ⟨hv1, hv2, hv3, hv4, hv5, hv6, hv7, -, -⟩ := placeOrderValidate_ok hval
  obtain ⟨hsM, hsL, hsD⟩ := setOrder_ok hset
  have hr := (Except.ok.inj h).symm
  have hcnt1 := checkedAdd64_some hcnt
  have hooc1 := checkedAdd16_some hooc
  subst hcnt1; subst hooc1; subst hsD
  refine ⟨hv1, hv2, hv3, hv4, hv5, hv6, hv7,
    ?_, ob1, slot, ts1, halloc, hsM, hsL, hlock, ?_, ?_, ?_, ?_,
    checkedAdd64_some_bound hcnt, checkedAdd16_some_bound hooc⟩
  · rw [hr]
    exact hoid
  · rw [hr]
  · rw [hr]
  · rw [hr]
  · rw [hr]

/-- C2 (amended): whenever a matching iteration produces a fill, the fill is
between the selected best bid and best ask, and the execution price it
records is min(bid limit price, ask limit price) - the lower of the two
limit prices, not the resting (earlier-timestamp) order's price. -/
theorem match_price_is_min_of_limit_prices {m : Market} {cfg : GlobalConfig}
    {clock : Clock} {ob : Orderbook} {data : List Order} {iters : Nat}
    {ob1 : Orderbook} {data1 : List Order} {f : Fill}
    (h : matchIteration m cfg clock ob data iters = MatchStep.step ob1 data1 f) :
    ∃ bidSlot bidOrder askSlot askOrder,
      findBestBid ob data = some (bidSlot, bidOrder) ∧
      findBestAsk ob data = some (askSlot, askOrder) ∧
      f.price = min bidOrder.price askOrder.price ∧
      f.bid_price = bidOrder.price ∧ f.ask_price = askOrder.price := by
  obtain ⟨bs, bo, sa, ao, h1, h2, _, h4, h5, h6, _⟩ := matchIteration_step_spec h
  exact ⟨bs, bo, sa, ao, h1, h2, h4, h5, h6⟩

/-- Witness for the amended C2 theorem on the simple-cross iteration. -/
theorem match_price_is_min_of_limit_prices_witness :
    ∃ bidSlot bidOrder askSlot askOrder,
      findBestBid scOrderbook [scBid, scAsk] = some (bidSlot, bidOrder) ∧
      findBestAsk scOrderbook [scBid, scAsk] = some (askSlot, askOrder) ∧
      scFill.price = min bidOrder.price askOrder.price ∧
      scFill.bid_price = bidOrder.price ∧ scFill.ask_price = askOrder.price :=
  match_price_is_min_of_limit_prices
    (show matchIteration scMarket scConfig ⟨3, 7⟩ scOrderbook [scBid, scAsk] 0 =
        MatchStep.step ⟨500, 0, 0, 0, 1⟩ [zeroOrder, zeroOrder] scFill from by
      set_option maxRecDepth 100000 in rfl)

/-- C9 (amended): a crossing PostOnly order is rejected with
PostOnlyWouldCross (the failed transaction changes nothing); a
non-crossing PostOnly order always rests on the book; and a fill whose
taker side is the resting ask (is_bid_maker true despite the ask
resting no later than the bid) can only arise when the two timestamps
are equal - with distinct timestamps the resting PostOnly ask would be
the maker. -/
theorem postonly_semantics :
    (∀ (m : Market) (ob : Orderbook) (data : List Order) (ts : TraderState)
        (k : Nat) (clock : Clock) (p : PlaceOrderParams),
      m.paused = false → (p.side = 0 ∨ p.side = 1) → p.time_in_force = 3 →
      m.isValidTick p.price → m.isValidLot p.size → m.lot_size ≤ p.size →
      p.size ≤ 1000000000000 →
      ((p.side = 0 ∧ 0 < ob.best_ask ∧ ob.best_ask ≤ p.price) ∨
       (p.side = 1 ∧ 0 < ob.best_bid ∧ p.price ≤ ob.best_bid)) →
      placeOrderHandler m ob data ts k clock p =
        Except.error DexError.PostOnlyWouldCross) ∧
    (∀ (m : Market) (ob : Orderbook) (data : List Order) (ts : TraderState)
        (k : Nat) (clock : Clock) (p : PlaceOrderParams) (r : PlaceResult),
      0 < m.lot_size →
      placeOrderHandler m ob data ts k clock p = Except.ok r →
      ∃ slot, slot < MAX_ORDERS ∧
        getOrder r.data slot =
          some (Order.new r.order_id k p.side p.price p.size p.time_in_force
            clock.unix_timestamp)) ∧
    (∀ (m : Market) (cfg : GlobalConfig) (clock : Clock) (ob : Orderbook)
        (data : List Order) (iters : Nat) (ob1 : Orderbook) (data1 : List Order)
        (f : Fill),
      matchIteration m cfg clock ob data iters = MatchStep.step ob1 data1 f →
      f.ask_tif = 3 → f.is_bid_maker = true → f.ask_timestamp ≤ f.bid_timestamp →
      f.bid_timestamp = f.ask_timestamp) := by
  refine ⟨?_, ?_, ?_⟩
  · intro m ob data ts k clock p h1 h2 h3 h4 h5 h6 h7 h8
    exact placeOrderHandler_validate_error
      (placeOrderValidate_postOnly_cross h1 h2 h3 h4 h5 h6 h7 h8)
  · intro m ob data ts k clock p r hlot hok
    obtain ⟨-, -, -, -, hvl, hle, -, -, ob1, slot, ts1, -, hsM, hsL, -, hdata, -⟩ :=
      placeOrder_ok_spec hok
    refine ⟨slot, hsM, ?_⟩
    rw [hdata]
    refine getOrder_set_self hsM hsL ?_
    intro he
    have hz : p.size = 0 := congrArg Order.size he
    omega
  · intro m cfg clock ob data iters ob1 data1 f hstep htif hmaker hle
    obtain ⟨bs, bo, sa, ao, -, -, -, -, -, -, -, -, hm, hbt, hat, -, -, -⟩ :=
      matchIteration_step_spec hstep
    rw [hbt, hat]
    rw [hm] at hmaker
    have := of_decide_eq_true hmaker
    rw [hbt, hat] at hle
    omega

/-- Witness for the amended C9 theorem: concrete instances of all three
conjuncts (a crossing PostOnly bid rejected; a non-crossing PostOnly bid
rested; the timestamp-tie conclusion on a concrete PostOnly-ask fill). -/
theorem postonly_semantics_witness :
    placeOrderHandler emptyMarket ⟨500, 0, 10100, 1, 0⟩ [zeroOrder]
        ⟨4, 500, 0, 1000000, 0, 0, 0⟩ 4 ⟨6, 0⟩ ⟨0, 10200, 1000, 3⟩ =
      Except.error DexError.PostOnlyWouldCross ∧
    (∃ slot, slot < MAX_ORDERS ∧
      getOrder [Order.new 6000000 4 0 10200 1000 3 6] slot =
        some (Order.new 6000000 4 0 10200 1000 3 6)) ∧
    (⟨5000002, 5000001, 5000000, 10000, 1000, 1, 2, 5, 10000, 10, 20, true,
      10000, 10000, 5, 5, 0, 3⟩ : Fill).bid_timestamp =
      (⟨5000002, 5000001, 5000000, 10000, 1000, 1, 2, 5, 10000, 10, 20, true,
        10000, 10000, 5, 5, 0, 3⟩ : Fill).ask_timestamp := by
  refine ⟨?_, ?_, ?_⟩
  · exact postonly_semantics.1 emptyMarket ⟨500, 0, 10100, 1, 0⟩ [zeroOrder]
      ⟨4, 500, 0, 1000000, 0, 0, 0⟩ 4 ⟨6, 0⟩ ⟨0, 10200, 1000, 3⟩
      (by decide) (by decide) (by decide) (by decide) (by decide) (by decide)
      (by decide) (Or.inl ⟨by decide, by decide, by decide⟩)
  · exact postonly_semantics.2.1 emptyMarket emptyOrderbook [zeroOrder]
      ⟨4, 500, 0, 1000000, 0, 0, 0⟩ 4 ⟨6, 0⟩ ⟨0, 10200, 1000, 3⟩
      ⟨⟨500, 5, 11, 12, 21, 22, 100, 1000, 9, false, 10200, 0, 1, 0⟩,
        ⟨500, 10200, 0, 1, 0⟩, [Order.new 6000000 4 0 10200 1000 3 6],
        ⟨4, 500, 0, 989800, 0, 10200, 1⟩, 6000000⟩
      (by decide)
      (by set_option maxRecDepth 100000 in rfl)
  · exact postonly_semantics.2.2 emptyMarket potConfig ⟨5, 2⟩
      ⟨500, 10000, 10000, 2, 0⟩
      [⟨5000000, 2, 1, 10000, 1000, 1000, 3, 5, 0, 0, 0, 0⟩,
       ⟨5000001, 1, 0, 10000, 1000, 1000, 0, 5, 0, 0, 0, 0⟩] 0
      ⟨500, 0, 0, 0, 0⟩
      [⟨1, 0, 0, 0, 0, 0, 0, 0, 0, 0, 0, 0⟩, zeroOrder]
      ⟨5000002, 5000001, 5000000, 10000, 1000, 1, 2, 5, 10000, 10, 20, true,
        10000, 10000, 5, 5, 0, 3⟩
      (by set_option maxRecDepth 100000 in rfl) rfl rfl (Nat.le_refl 5)

theorem matchIteration_step_fill_id {m : Market} {cfg : GlobalConfig}
    {clock : Clock} {ob : Orderbook} {data : List Order} {iters : Nat}
    {ob1 : Orderbook} {data1 : List Order} {f : Fill}
    (h : matchIteration m cfg clock ob data iters = MatchStep.step ob1 data1 f) :
    f.fill_id = clock.unix_timestamp * 1000000 + clock.slot + iters := by
  obtain ⟨_, _, _, _, -, -, -, -, -, -, -, -, -, -, -, -, -, h14⟩ :=
    matchIteration_step_spec h
  exact h14

theorem matchIteration_step_bid_ne_ask {m : Market} {cfg : GlobalConfig}
    {clock : Clock} {ob : Orderbook} {data : List Order} {iters : Nat}
    {ob1 : Orderbook} {data1 : List Order} {f : Fill}
    (h : matchIteration m cfg clock ob data iters = MatchStep.step ob1 data1 f) :
    f.bid_trader ≠ f.ask_trader := by
  obtain ⟨_, _, _, _, -, -, hcm, -, -, -, h7, h8, -, -, -, -, -, -⟩ :=
    matchIteration_step_spec h
  rw [h7, h8]
  exact canMatch_true_ne_trader hcm

theorem matchLoop_fills_bid_ne_ask {m : Market} {cfg : GlobalConfig} {clock : Clock} :
    ∀ (fuel iters : Nat) (ob : Orderbook) (data : List Order) (acc : List Fill)
      (res : Orderbook × List Order × List Fill),
      matchLoop m cfg clock fuel iters ob data acc = Except.ok res →
      (∀ g ∈ acc, g.bid_trader ≠ g.ask_trader) →
      ∀ g ∈ res.2.2, g.bid_trader ≠ g.ask_trader := by
  intro fuel
  induction fuel with
  | zero =>
    intro iters ob data acc res h hacc g hg
    unfold matchLoop at h
    cases Except.ok.inj h
    exact hacc g hg
  | succ n ih =>
    intro iters ob data acc res h hacc g hg
    unfold matchLoop at h
    split at h
    · cases Except.ok.inj h
      exact hacc g hg
    · exact Except.noConfusion h
    · rename_i ob1 data1 f hstep
      split at h
      · exact Except.noConfusion h
      · rename_i it1 hit
        refine ih _ _ _ _ _ h ?_ g hg
        intro g' hg'
        rcases List.mem_append.mp hg' with h1 | h2
        · exact hacc g' h1
        · rw [List.mem_singleton.mp h2]
          exact matchIteration_step_bid_ne_ask hstep

theorem applyOp_fills_bid_ne_ask {cfg : GlobalConfig} {s : SysState} {op : DexOp}
    {s' : SysState} {fs : List Fill} (h : applyOp cfg s op = Except.ok (s', fs)) :
    ∀ f ∈ fs, f.bid_trader ≠ f.ask_trader := by
  cases op with
  | placeOp k p clock =>
    simp only [applyOp] at h
    split at h
    · exact Except.noConfusion h
    · obtain ⟨-, h2⟩ := Prod.mk.inj (Except.ok.inj h)
      subst h2
      intro f hf
      exact absurd hf (List.not_mem_nil f)
  | cancelOp k oid =>
    simp only [applyOp] at h
    split at h
    · exact Except.noConfusion h
    · obtain ⟨-, h2⟩ := Prod.mk.inj (Except.ok.inj h)
      subst h2
      intro f hf
      exact absurd hf (List.not_mem_nil f)
  | matchOp maxIter clock =>
    simp only [applyOp] at h
    split at h
    · exact Except.noConfusion h
    · rename_i r hr
      obtain ⟨-, h2⟩ := Prod.mk.inj (Except.ok.inj h)
      subst h2
      unfold matchOrdersHandler at hr
      split at hr
      · exact Except.noConfusion hr
      split at hr
      · exact Except.noConfusion hr
      rename_i ob1 data1 fills hloop
      have hfills := matchLoop_fills_bid_ne_ask maxIter 0 s.ob s.data []
        (ob1, data1, fills) hloop (fun g hg => absurd hg (List.not_mem_nil g))
      cases Except.ok.inj hr
      exact hfills
  | depositOp k mint vault amount =>
    simp only [applyOp] at h
    split at h
    · exact Except.noConfusion h
    · obtain ⟨-, h2⟩ := Prod.mk.inj (Except.ok.inj h)
      subst h2
      intro f hf
      exact absurd hf (List.not_mem_nil f)
  | withdrawOp k mint vault amount =>
    simp only [applyOp] at h
    split at h
    · exact Except.noConfusion h
    · obtain ⟨-, h2⟩ := Prod.mk.inj (Except.ok.inj h)
      subst h2
      intro f hf
      exact absurd hf (List.not_mem_nil f)

/-- C8: across every sequence of public operations from every starting
state, no emitted fill has equal bid and ask traders: can_match refuses
self-trades and fills are only produced for matchable pairs. -/
theorem no_self_trade_fills (cfg : GlobalConfig) (s0 : SysState)
    (ops : List DexOp) :
    ∀ f ∈ (runOps cfg s0 ops).2, f.bid_trader ≠ f.ask_trader := by
  induction ops generalizing s0 with
  | nil =>
    intro f hf
    exact absurd hf (List.not_mem_nil f)
  | cons op rest ih =>
    intro f hf
    simp only [runOps] at hf
    split at hf
    · rename_i s1 fs happ
      rcases List.mem_append.mp hf with h1 | h2
      · exact applyOp_fills_bid_ne_ask happ f h1
      · exact ih s1 f h2
    · exact ih s0 f hf

/-- Witness for C8 on the simple-cross run. -/
theorem no_self_trade_fills_witness : scFill.bid_trader ≠ scFill.ask_trader :=
  no_self_trade_fills scConfig scState [DexOp.matchOp 10 ⟨3, 7⟩] scFill
    (by set_option maxRecDepth 400000 in exact List.mem_singleton_self scFill)

theorem matchLoop_fill_ids {m : Market} {cfg : GlobalConfig} {clock : Clock} :
    ∀ (fuel iters : Nat) (ob : Orderbook) (data : List Order) (acc : List Fill)
      (res : Orderbook × List Order × List Fill),
      matchLoop m cfg clock fuel iters ob data acc = Except.ok res →
      ∃ tail, res.2.2 = acc ++ tail ∧
        ∀ j (hj : j < tail.length), (tail.get ⟨j, hj⟩).fill_id =
          clock.unix_timestamp * 1000000 + clock.slot + iters + j := by
  intro fuel
  induction fuel with
  | zero =>
    intro iters ob data acc res h
    unfold matchLoop at h
    cases Except.ok.inj h
    exact ⟨[], (List.append_nil acc).symm, fun j hj => absurd hj (by simp)⟩
  | succ n ih =>
    intro iters ob data acc res h
    unfold matchLoop at h
    split at h
    · cases Except.ok.inj h
      exact ⟨[], (List.append_nil acc).symm, fun j hj => absurd hj (by simp)⟩
    · exact Except.noConfusion h
    · rename_i ob1 data1 f hstep
      split at h
      · exact Except.noConfusion h
      · rename_i it1 hit
        have hit1 := checkedAdd8_some hit
        subst hit1
        obtain ⟨tail, htl, hids⟩ := ih (iters + 1) ob1 data1 (acc ++ [f]) res h
        refine ⟨f :: tail, by simp [htl, List.append_assoc], ?_⟩
        intro j hj
        cases j with
        | zero =>
          have := matchIteration_step_fill_id hstep
          simpa using this
        | succ j' =>
          have hj' : j' < tail.length := by
            simpa [Nat.succ_lt_succ_iff] using hj
          have := hids j' hj'
          simp only [List.get_cons_succ]
          omega

/-- C5 (amended): every fill emitted by a successful match_orders carries
fill_id = timestamp * 10^6 + slot + (its index in the batch), and the
fill ids within one call are pairwise distinct.  (Across calls at the
same timestamp and slot the same ids are produced again; nothing
detects that collision.) -/
theorem fill_id_derivation {m : Market} {cfg : GlobalConfig} {clock : Clock}
    {ob : Orderbook} {data : List Order} {maxIter : Nat} {r : MatchResult}
    (h : matchOrdersHandler m cfg clock ob data maxIter = Except.ok r) :
    (∀ j (hj : j < r.fills.length), (r.fills.get ⟨j, hj⟩).fill_id =
      clock.unix_timestamp * 1000000 + clock.slot + j) ∧
    (∀ i j (hi : i < r.fills.length) (hj : j < r.fills.length), i ≠ j →
      (r.fills.get ⟨i, hi⟩).fill_id ≠ (r.fills.get ⟨j, hj⟩).fill_id) := by
  unfold matchOrdersHandler at h
  split at h
  · exact Except.noConfusion h
  split at h
  · exact Except.noConfusion h
  rename_i ob1 data1 fills hloop
  obtain ⟨tail, htl, hids⟩ :=
    matchLoop_fill_ids maxIter 0 ob data [] (ob1, data1, fills) hloop
  have htl' : fills = tail := by simpa using htl
  rw [← htl'] at hids
  have hr := (Except.ok.inj h).symm
  subst hr
  constructor
  · intro j hj
    show (fills.get ⟨j, hj⟩).fill_id = clock.unix_timestamp * 1000000 + clock.slot + j
    have := hids j hj
    omega
  · intro i j hi hj hne
    show (fills.get ⟨i, hi⟩).fill_id ≠ (fills.get ⟨j, hj⟩).fill_id
    have h1 := hids i hi
    have h2 := hids j hj
    omega

/-- Witness for the amended C5 theorem on the simple-cross run at clock
(3, 7). -/
theorem fill_id_derivation_witness :
    ([scFill].get ⟨0, by decide⟩).fill_id = 3 * 1000000 + 7 + 0 := by
  have h := fill_id_derivation
    (show matchOrdersHandler scMarket scConfig ⟨3, 7⟩ scOrderbook [scBid, scAsk] 10 =
        Except.ok ⟨⟨500, 5, 11, 12, 21, 22, 100, 1000, 9, false, 0, 0, 0, 0⟩,
          ⟨500, 0, 0, 0, 1⟩, [zeroOrder, zeroOrder], [scFill]⟩ from by
      set_option maxRecDepth 100000 in rfl)
  exact h.1 0 (by decide)

theorem lockQuote_ok {ts ts' : TraderState} {a : Nat}
    (h : ts.lockQuote a = Except.ok ts') :
    a ≤ ts.quote_available ∧ ts.quote_locked + a ≤ U64MAX ∧
    ts' = { ts with
      quote_available := ts.quote_available - a,
      quote_locked := ts.quote_locked + a } := by
  unfold TraderState.lockQuote at h
  split at h
  · rename_i hle
    split at h
    · exact Except.noConfusion h
    · rename_i av hav
      split at h
      · exact Except.noConfusion h
      · rename_i lk hlk
        obtain ⟨hav1, -⟩ := checkedSub_some hav
        have hlk1 := checkedAdd64_some hlk
        subst hav1; subst hlk1
        exact ⟨hle, checkedAdd64_some_bound hlk, (Except.ok.inj h).symm⟩
  · exact Except.noConfusion h

theorem lockBase_ok {ts ts' : TraderState} {a : Nat}
    (h : ts.lockBase a = Except.ok ts') :
    a ≤ ts.base_available ∧ ts.base_locked + a ≤ U64MAX ∧
    ts' = { ts with
      base_available := ts.base_available - a,
      base_locked := ts.base_locked + a } := by
  unfold TraderState.lockBase at h
  split at h
  · rename_i hle
    split at h
    · exact Except.noConfusion h
    · rename_i av hav
      split at h
      · exact Except.noConfusion h
      · rename_i lk hlk
        obtain ⟨hav1, -⟩ := checkedSub_some hav
        have hlk1 := checkedAdd64_some hlk
        subst hav1; subst hlk1
        exact ⟨hle, checkedAdd64_some_bound hlk, (Except.ok.inj h).symm⟩
  · exact Except.noConfusion h

theorem unlockQuote_eval {ts : TraderState} {a : Nat}
    (h1 : a ≤ ts.quote_locked) (h2 : ts.quote_available + a ≤ U64MAX) :
    ts.unlockQuote a = Except.ok
      { ts with
        quote_available := ts.quote_available + a,
        quote_locked := ts.quote_locked - a } := by
  have hsub := checkedSub_of_le h1
  have hadd : checkedAdd64 ts.quote_available a = some (ts.quote_available + a) := by
    unfold checkedAdd64
    rw [if_pos h2]
  unfold TraderState.unlockQuote
  rw [if_pos h1]
  simp only [hsub, hadd]

theorem unlockBase_eval {ts : TraderState} {a : Nat}
    (h1 : a ≤ ts.base_locked) (h2 : ts.base_available + a ≤ U64MAX) :
    ts.unlockBase a = Except.ok
      { ts with
        base_available := ts.base_available + a,
        base_locked := ts.base_locked - a } := by
  have hsub := checkedSub_of_le h1
  have hadd : checkedAdd64 ts.base_available a = some (ts.base_available + a) := by
    unfold checkedAdd64
    rw [if_pos h2]
  unfold TraderState.unlockBase
  rw [if_pos h1]
  simp only [hsub, hadd]

/-- Forward evaluation of cancel_order once the order is found: the slot is
freed (with the free-list link written into it), order_count and the
trader's open order count decrement, and best prices are recomputed. -/
theorem cancelOrderHandler_eval {m : Market} {ob : Orderbook} {data : List Order}
    {ts : TraderState} {k oid slot : Nat} {order : Order} {ts2 : TraderState}
    (hfind : findOrderForCancel data k oid = some (slot, order))
    (hnf : ¬ order.isFilled)
    (hunlock : unlockCollateral m ts order = Except.ok ts2)
    (hsM : slot < MAX_ORDERS) (hsL : slot < data.length)
    (hcnt : 1 ≤ ob.order_count) (hooc : 1 ≤ ts.open_order_count) :
    cancelOrderHandler m ob data ts k oid = Except.ok
      { market :=
          { m with
              best_bid := (updateBestPrices
                { ob with
                    free_list_head := slot,
                    order_count := ob.order_count - 1 }
                (data.set slot
                  (if ob.free_list_head ≠ 0 then
                    { zeroOrder with order_id := ob.free_list_head }
                  else zeroOrder))).best_bid,
              best_ask := (updateBestPrices
                { ob with
                    free_list_head := slot,
                    order_count := ob.order_count - 1 }
                (data.set slot
                  (if ob.free_list_head ≠ 0 then
                    { zeroOrder with order_id := ob.free_list_head }
                  else zeroOrder))).best_ask,
              order_count := (updateBestPrices
                { ob with
                    free_list_head := slot,
                    order_count := ob.order_count - 1 }
                (data.set slot
                  (if ob.free_list_head ≠ 0 then
                    { zeroOrder with order_id := ob.free_list_head }
                  else zeroOrder))).order_count },
        ob := updateBestPrices
          { ob with
              free_list_head := slot,
              order_count := ob.order_count - 1 }
          (data.set slot
            (if ob.free_list_head ≠ 0 then
              { zeroOrder with order_id := ob.free_list_head }
            else zeroOrder)),
        data := data.set slot
          (if ob.free_list_head ≠ 0 then
            { zeroOrder with order_id := ob.free_list_head }
          else zeroOrder),
        traderState := { ts2 with open_order_count := ts.open_order_count - 1 } } := by
  have hfree : freeSlot ob data slot = Except.ok
      ({ ob with free_list_head := slot },
        data.set slot
          (if ob.free_list_head ≠ 0 then
            { zeroOrder with order_id := ob.free_list_head }
          else zeroOrder)) := by
    unfold freeSlot
    rw [if_pos hsM, if_pos hsL]
  have hsub1 : checkedSub ob.order_count 1 = some (ob.order_count - 1) :=
    checkedSub_of_le hcnt
  have hsub2 : checkedSub ts.open_order_count 1 = some (ts.open_order_count - 1) :=
    checkedSub_of_le hooc
  unfold cancelOrderHandler
  simp only [hfind, if_neg hnf, hunlock, hfree, hsub1, hsub2]

/-- The scan of cancel_order returns the unique matching slot when it is in
the scanned range. -/
theorem findOrderLoop_unique_mem {data : List Order} {k oid s : Nat} {o : Order}
    (hs : getOrder data s = some o)
    (hmatch : o.order_id = oid ∧ o.trader = k)
    (huniq : ∀ j o', getOrder data j = some o' → o'.order_id = oid →
      o'.trader = k → j = s) :
    ∀ l : List Nat, s ∈ l → findOrderLoop data k oid l = some (s, o) := by
  intro l
  induction l with
  | nil =>
    intro h
    exact absurd h (List.not_mem_nil s)
  | cons i rest ih =>
    intro hmem
    unfold findOrderLoop
    cases hgo : getOrder data i with
    | none =>
      have hne : i ≠ s := by
        intro he
        rw [he, hs] at hgo
        cases hgo
      have hrest : s ∈ rest := by
        rcases List.mem_cons.mp hmem with h1 | h2
        · exact absurd h1.symm hne
        · exact h2
      exact ih hrest
    | some o' =>
      show (if o'.order_id = oid ∧ o'.trader = k then some (i, o')
        else findOrderLoop data k oid rest) = some (s, o)
      by_cases hcond : o'.order_id = oid ∧ o'.trader = k
      · rw [if_pos hcond]
        have his : i = s := huniq i o' hgo hcond.1 hcond.2
        subst his
        rw [hs] at hgo
        rw [Option.some_inj.mp hgo]
      · rw [if_neg hcond]
        have hne : i ≠ s := by
          intro he
          subst he
          rw [hs] at hgo
          exact hcond (Option.some_inj.mp hgo ▸ hmatch)
        have hrest : s ∈ rest := by
          rcases List.mem_cons.mp hmem with h1 | h2
          · exact absurd h1.symm hne
          · exact h2
        exact ih hrest

theorem updateBestPrices_order_count (ob : Orderbook) (data : List Order) :
    (updateBestPrices ob data).order_count = ob.order_count := by
  unfold updateBestPrices
  rfl

/-- C4: a successful place_order locks exactly
floor(price * size / lot_size) quote for a bid (size base for an ask),
and an immediate cancel_order of the placed order (no intervening fill,
its order id fresh on the book) succeeds and restores base_available and
quote_available to exactly their prior values. -/
theorem place_then_cancel_restores_available {m : Market} {ob : Orderbook}
    {data : List Order} {ts : TraderState} {k : Nat} {clock : Clock}
    {p : PlaceOrderParams} {r : PlaceResult}
    (hlot : 0 < m.lot_size)
    (hqa : ts.quote_available ≤ U64MAX) (hba : ts.base_available ≤ U64MAX)
    (hok : placeOrderHandler m ob data ts k clock p = Except.ok r)
    (hfresh : ∀ j o, getOrder data j = some o → o.order_id = r.order_id →
      o.trader ≠ k) :
    (p.side = 0 →
      r.traderState.quote_available =
        ts.quote_available - p.price * p.size / m.lot_size ∧
      r.traderState.quote_locked =
        ts.quote_locked + p.price * p.size / m.lot_size) ∧
    (p.side = 1 →
      r.traderState.base_available = ts.base_available - p.size ∧
      r.traderState.base_locked = ts.base_locked + p.size) ∧
    ∃ c : CancelResult,
      cancelOrderHandler r.market r.ob r.data r.traderState k r.order_id =
        Except.ok c ∧
      c.traderState.base_available = ts.base_available ∧
      c.traderState.quote_available = ts.quote_available := by
  obtain ⟨hv1, hv2, hv3, hv4, hv5, hv6, hv7, hoid, ob1, slot, ts1, halloc, hsM,
    hsL, hlockC, hdata, hob, hmarket, hts, hcntB, hoocB⟩ := placeOrder_ok_spec hok
  have hszpos : 0 < p.size := Nat.lt_of_lt_of_le hlot hv6
  have hnz : Order.new r.order_id k p.side p.price p.size p.time_in_force
      clock.unix_timestamp ≠ zeroOrder := by
    intro he
    have hz : p.size = 0 := congrArg Order.size he
    omega
  have hget : getOrder r.data slot =
      some (Order.new r.order_id k p.side p.price p.size p.time_in_force
        clock.unix_timestamp) := by
    rw [hdata]
    exact getOrder_set_self hsM hsL hnz
  have huniq : ∀ j o', getOrder r.data j = some o' → o'.order_id = r.order_id →
      o'.trader = k → j = slot := by
    intro j o' hj hid htr
    by_contra hne
    rw [hdata, getOrder_set_ne (fun he => hne he.symm)] at hj
    exact hfresh j o' hj hid htr
  have hfind : findOrderForCancel r.data k r.order_id =
      some (slot, Order.new r.order_id k p.side p.price p.size p.time_in_force
        clock.unix_timestamp) :=
    findOrderLoop_unique_mem hget ⟨rfl, rfl⟩ huniq (List.range MAX_ORDERS)
      (List.mem_range.mpr hsM)
  have hnf : ¬ (Order.new r.order_id k p.side p.price p.size p.time_in_force
      clock.unix_timestamp).isFilled := by
    intro he
    have hz : p.size = 0 := he
    omega
  have hsL' : slot < r.data.length := by
    rw [hdata, List.length_set]
    exact hsL
  have hcnt1 : 1 ≤ r.ob.order_count := by
    rw [hob, updateBestPrices_order_count]
    show 1 ≤ ob1.order_count + 1
    omega
  have hooc1 : 1 ≤ r.traderState.open_order_count := by
    rw [hts]
    show 1 ≤ ts.open_order_count + 1
    omega
  have hml : r.market.lot_size = m.lot_size := by rw [hmarket]
  rcases hv2 with hs0 | hs1
  · -- bid: quote collateral
    have hlockC' := hlockC
    unfold lockCollateral at hlockC'
    rw [if_pos hs0] at hlockC'
    split at hlockC'
    · exact Except.noConfusion hlockC'
    rename_i q hq
    obtain ⟨v, hmul, hdiv⟩ := Option.bind_eq_some.mp hq
    have hveq := checkedMul64_some hmul
    obtain ⟨hqval, -⟩ := checkedDiv_some hdiv
    obtain ⟨hqle, hqbound, hts1⟩ := lockQuote_ok hlockC'
    have hqa' : r.traderState.quote_available = ts.quote_available - q := by
      rw [hts, hts1]
    have hql' : r.traderState.quote_locked = ts.quote_locked + q := by
      rw [hts, hts1]
    have hq2 : (checkedMul64
        (Order.new r.order_id k p.side p.price p.size p.time_in_force
          clock.unix_timestamp).price
        (Order.new r.order_id k p.side p.price p.size p.time_in_force
          clock.unix_timestamp).remaining_size >>= fun w =>
        checkedDiv w r.market.lot_size) = some q := by
      show (checkedMul64 p.price p.size >>= fun w =>
        checkedDiv w r.market.lot_size) = some q
      rw [hml, hmul]
      exact hdiv
    have hunlock : unlockCollateral r.market r.traderState
        (Order.new r.order_id k p.side p.price p.size p.time_in_force
          clock.unix_timestamp) = Except.ok
        { r.traderState with
            quote_available := r.traderState.quote_available + q,
            quote_locked := r.traderState.quote_locked - q } := by
      unfold unlockCollateral
      rw [if_pos (show (Order.new r.order_id k p.side p.price p.size
        p.time_in_force clock.unix_timestamp).isBid from hs0)]
      simp only [hq2]
      refine unlockQuote_eval ?_ ?_
      · rw [hql']
        omega
      · rw [hqa']
        have hcancel : ts.quote_available - q + q = ts.quote_available :=
          Nat.sub_add_cancel hqle
        omega
    have hq3 : q = p.price * p.size / m.lot_size := by rw [hqval, hveq]
    refine ⟨fun _ => ⟨by rw [hqa', hq3], by rw [hql', hq3]⟩,
      fun h1 => absurd (hs0 ▸ h1) (by omega),
      _, cancelOrderHandler_eval hfind hnf hunlock hsM hsL' hcnt1 hooc1, ?_, ?_⟩
    · show r.traderState.base_available = ts.base_available
      rw [hts, hts1]
    · show r.traderState.quote_available + q = ts.quote_available
      rw [hqa']
      exact Nat.sub_add_cancel hqle
  · -- ask: base collateral
    have hlockC' := hlockC
    unfold lockCollateral at hlockC'
    rw [if_neg (by omega : ¬ p.side = 0)] at hlockC'
    obtain ⟨hble, hbbound, hts1⟩ := lockBase_ok hlockC'
    have hba' : r.traderState.base_available = ts.base_available - p.size := by
      rw [hts, hts1]
    have hbl' : r.traderState.base_locked = ts.base_locked + p.size := by
      rw [hts, hts1]
    have hunlock : unlockCollateral r.market r.traderState
        (Order.new r.order_id k p.side p.price p.size p.time_in_force
          clock.unix_timestamp) = Except.ok
        { r.traderState with
            base_available := r.traderState.base_available + p.size,
            base_locked := r.traderState.base_locked - p.size } := by
      unfold unlockCollateral
      rw [if_neg (show ¬ (Order.new r.order_id k p.side p.price p.size
        p.time_in_force clock.unix_timestamp).isBid from by
          intro he
          have : p.side = 0 := he
          omega)]
      refine unlockBase_eval ?_ ?_
      · show p.size ≤ r.traderState.base_locked
        rw [hbl']
        omega
      · show r.traderState.base_available + p.size ≤ U64MAX
        rw [hba']
        have hcancel : ts.base_available - p.size + p.size = ts.base_available :=
          Nat.sub_add_cancel hble
        omega
    refine ⟨fun h0 => absurd (hs1 ▸ h0) (by omega),
      fun _ => ⟨by rw [hba'], by rw [hbl']⟩,
      _, cancelOrderHandler_eval hfind hnf hunlock hsM hsL' hcnt1 hooc1, ?_, ?_⟩
    · show r.traderState.base_available + p.size = ts.base_available
      rw [hba']
      exact Nat.sub_add_cancel hble
    · show r.traderState.quote_available = ts.quote_available
      rw [hts, hts1]

/-- Witness for C4: trader 7 places a bid (10000 x 1000) on an empty
one-slot book and cancels it; base and quote available return to 5000
and 1000000. -/
theorem place_then_cancel_restores_available_witness :
    ∃ c : CancelResult,
      cancelOrderHandler
          ⟨500, 5, 11, 12, 21, 22, 100, 1000, 9, false, 10000, 0, 1, 0⟩
          ⟨500, 10000, 0, 1, 0⟩
          [⟨2000003, 7, 0, 10000, 1000, 1000, 0, 2, 0, 0, 0, 0⟩]
          ⟨7, 500, 5000, 990000, 0, 10000, 1⟩ 7 2000003 = Except.ok c ∧
      c.traderState.base_available = rtTrader.base_available ∧
      c.traderState.quote_available = rtTrader.quote_available := by
  have h := @place_then_cancel_restores_available
    emptyMarket emptyOrderbook [zeroOrder] rtTrader 7 ⟨2, 3⟩ ⟨0, 10000, 1000, 0⟩
    ⟨⟨500, 5, 11, 12, 21, 22, 100, 1000, 9, false, 10000, 0, 1, 0⟩,
      ⟨500, 10000, 0, 1, 0⟩,
      [⟨2000003, 7, 0, 10000, 1000, 1000, 0, 2, 0, 0, 0, 0⟩],
      ⟨7, 500, 5000, 990000, 0, 10000, 1⟩, 2000003⟩
    (by decide) (by decide) (by decide)
    (by set_option maxRecDepth 100000 in rfl)
    (by
      intro j o hj hid
      obtain ⟨-, hlen, hslot, hnz⟩ := getOrder_some hj
      have hj0 : j = 0 := Nat.lt_one_iff.mp hlen
      subst hj0
      exact absurd (show o = zeroOrder from hslot.symm) hnz)
  exact h.2.2

theorem bestPricesStep_fst (data : List Order) (acc : Nat × Nat) (i : Nat) :
    (bestPricesStep data acc i).1 = Nat.max acc.1 (bidPriceAt data i) := by
  unfold bestPricesStep bidPriceAt
  split
  · rename_i o hgo
    split
    · rename_i hrem
      split
      · rename_i hc
        rw [if_pos ⟨hc.1, hrem⟩]
        show o.price = Nat.max acc.1 o.price
        exact (Nat.max_eq_right (Nat.le_of_lt hc.2)).symm
      · rename_i hc
        split
        · rename_i hc2
          have h1 : o.side = 1 := hc2.1
          rw [if_neg (fun hh => by omega)]
          show acc.1 = Nat.max acc.1 0
          exact (Nat.max_zero acc.1).symm
        · rename_i hc2
          by_cases hb : o.side = 0 ∧ 0 < o.remaining_size
          · rw [if_pos hb]
            have hple : ¬ acc.1 < o.price := fun hlt => hc ⟨hb.1, hlt⟩
            show acc.1 = Nat.max acc.1 o.price
            exact (Nat.max_eq_left (Nat.le_of_not_lt hple)).symm
          · rw [if_neg hb]
            show acc.1 = Nat.max acc.1 0
            exact (Nat.max_zero acc.1).symm
    · rename_i hrem
      rw [if_neg (fun hh => hrem hh.2)]
      show acc.1 = Nat.max acc.1 0
      exact (Nat.max_zero acc.1).symm
  · show acc.1 = Nat.max acc.1 0
    exact (Nat.max_zero acc.1).symm

theorem bestPricesStep_snd (data : List Order) (acc : Nat × Nat) (i : Nat)
    (hacc : acc.2 ≤ U64MAX) :
    (bestPricesStep data acc i).2 = Nat.min acc.2 (askPriceAt data i) := by
  unfold bestPricesStep askPriceAt
  split
  · rename_i o hgo
    split
    · rename_i hrem
      split
      · rename_i hc
        have h0 : o.side = 0 := hc.1
        rw [if_neg (fun hh => by omega)]
        show acc.2 = Nat.min acc.2 U64MAX
        exact (Nat.min_eq_left hacc).symm
      · rename_i hc
        split
        · rename_i hc2
          rw [if_pos ⟨hc2.1, hrem⟩]
          show o.price = Nat.min acc.2 o.price
          exact (Nat.min_eq_right (Nat.le_of_lt hc2.2)).symm
        · rename_i hc2
          by_cases hb : o.side = 1 ∧ 0 < o.remaining_size
          · rw [if_pos hb]
            have hple : ¬ o.price < acc.2 := fun hlt => hc2 ⟨hb.1, hlt⟩
            show acc.2 = Nat.min acc.2 o.price
            exact (Nat.min_eq_left (Nat.le_of_not_lt hple)).symm
          · rw [if_neg hb]
            show acc.2 = Nat.min acc.2 U64MAX
            exact (Nat.min_eq_left hacc).symm
    · rename_i hrem
      rw [if_neg (fun hh => hrem hh.2)]
      show acc.2 = Nat.min acc.2 U64MAX
      exact (Nat.min_eq_left hacc).symm
  · show acc.2 = Nat.min acc.2 U64MAX
    exact (Nat.min_eq_left hacc).symm

theorem bestPricesStep_snd_le (data : List Order) (acc : Nat × Nat) (i : Nat)
    (hacc : acc.2 ≤ U64MAX) : (bestPricesStep data acc i).2 ≤ U64MAX := by
  rw [bestPricesStep_snd data acc i hacc]
  exact Nat.le_trans (Nat.min_le_left _ _) hacc

theorem bestPrices_fold_fst (data : List Order) :
    ∀ (l : List Nat) (acc : Nat × Nat),
      (l.foldl (bestPricesStep data) acc).1 =
        l.foldl (fun a i => Nat.max a (bidPriceAt data i)) acc.1 := by
  intro l
  induction l with
  | nil => intro acc; rfl
  | cons i rest ih =>
    intro acc
    rw [List.foldl_cons, List.foldl_cons, ih (bestPricesStep data acc i),
      bestPricesStep_fst]

theorem bestPrices_fold_snd (data : List Order) :
    ∀ (l : List Nat) (acc : Nat × Nat), acc.2 ≤ U64MAX →
      (l.foldl (bestPricesStep data) acc).2 =
        l.foldl (fun a i => Nat.min a (askPriceAt data i)) acc.2 := by
  intro l
  induction l with
  | nil => intro acc _; rfl
  | cons i rest ih =>
    intro acc hacc
    rw [List.foldl_cons, List.foldl_cons,
      ih (bestPricesStep data acc i) (bestPricesStep_snd_le data acc i hacc),
      bestPricesStep_snd data acc i hacc]

theorem foldl_max_livePricesBid (data : List Order) :
    ∀ (l : List Nat) (a : Nat),
      ((l.filterMap (fun i =>
        match getOrder data i with
        | some o => if o.side = 0 ∧ 0 < o.remaining_size then some o.price else none
        | none => none)).foldl Nat.max a) =
      l.foldl (fun x i => Nat.max x (bidPriceAt data i)) a := by
  intro l
  induction l with
  | nil => intro a; rfl
  | cons i rest ih =>
    intro a
    rw [List.foldl_cons]
    cases hgo : getOrder data i with
    | none =>
      have hhead : bidPriceAt data i = 0 := by
        unfold bidPriceAt
        rw [hgo]
      have hmz : Nat.max a 0 = a := Nat.max_eq_left (Nat.zero_le a)
      rw [hhead, hmz, List.filterMap_cons_none (by rw [hgo])]
      exact ih a
    | some o =>
      by_cases hb : o.side = 0 ∧ 0 < o.remaining_size
      · have hhead : bidPriceAt data i = o.price := by
          unfold bidPriceAt
          rw [hgo]
          exact if_pos hb
        rw [hhead, List.filterMap_cons_some (by rw [hgo]; exact if_pos hb),
          List.foldl_cons]
        exact ih (Nat.max a o.price)
      · have hhead : bidPriceAt data i = 0 := by
          unfold bidPriceAt
          rw [hgo]
          exact if_neg hb
        have hmz : Nat.max a 0 = a := Nat.max_eq_left (Nat.zero_le a)
        rw [hhead, hmz,
          List.filterMap_cons_none (by rw [hgo]; exact if_neg hb)]
        exact ih a

theorem foldl_min_livePricesAsk (data : List Order) :
    ∀ (l : List Nat) (a : Nat), a ≤ U64MAX →
      ((l.filterMap (fun i =>
        match getOrder data i with
        | some o => if o.side = 1 ∧ 0 < o.remaining_size then some o.price else none
        | none => none)).foldl Nat.min a) =
      l.foldl (fun x i => Nat.min x (askPriceAt data i)) a := by
  intro l
  induction l with
  | nil => intro a _; rfl
  | cons i rest ih =>
    intro a ha
    rw [List.foldl_cons]
    cases hgo : getOrder data i with
    | none =>
      have hhead : askPriceAt data i = U64MAX := by
        unfold askPriceAt
        rw [hgo]
      have hmn : Nat.min a U64MAX = a := Nat.min_eq_left ha
      rw [hhead, hmn, List.filterMap_cons_none (by rw [hgo])]
      exact ih a ha
    | some o =>
      by_cases hb : o.side = 1 ∧ 0 < o.remaining_size
      · have hhead : askPriceAt data i = o.price := by
          unfold askPriceAt
          rw [hgo]
          exact if_pos hb
        rw [hhead, List.filterMap_cons_some (by rw [hgo]; exact if_pos hb),
          List.foldl_cons]
        exact ih (Nat.min a o.price) (Nat.le_trans (Nat.min_le_left _ _) ha)
      · have hhead : askPriceAt data i = U64MAX := by
          unfold askPriceAt
          rw [hgo]
          exact if_neg hb
        have hmn : Nat.min a U64MAX = a := Nat.min_eq_left ha
        rw [hhead, hmn,
          List.filterMap_cons_none (by rw [hgo]; exact if_neg hb)]
        exact ih a ha

theorem foldl_min_le (l : List Nat) : ∀ a : Nat, l.foldl Nat.min a ≤ a := by
  induction l with
  | nil => intro a; exact Nat.le_refl a
  | cons p rest ih =>
    intro a
    rw [List.foldl_cons]
    exact Nat.le_trans (ih (Nat.min a p)) (Nat.min_le_left a p)

theorem foldl_min_filter_big :
    ∀ (ps : List Nat) (a : Nat), a ≤ U64MAX →
      ps.foldl Nat.min a =
        (ps.filter (fun p => decide (p < U64MAX))).foldl Nat.min a := by
  intro ps
  induction ps with
  | nil => intro a _; rfl
  | cons p rest ih =>
    intro a ha
    rw [List.foldl_cons]
    by_cases hp : p < U64MAX
    · rw [List.filter_cons_of_pos (by simpa using hp), List.foldl_cons]
      exact ih (Nat.min a p) (Nat.le_trans (Nat.min_le_left a p) ha)
    · rw [List.filter_cons_of_neg (by simpa using hp)]
      have hmn : Nat.min a p = a :=
        Nat.min_eq_left (Nat.le_trans ha (Nat.le_of_not_lt hp))
      rw [hmn]
      exact ih a ha

theorem minFold_render (ps : List Nat) :
    (if ps.foldl Nat.min U64MAX = U64MAX then 0 else ps.foldl Nat.min U64MAX) =
    (match ps.filter (fun p => decide (p < U64MAX)) with
      | [] => 0
      | q :: qs => qs.foldl Nat.min q) := by
  have hA := foldl_min_filter_big ps U64MAX (Nat.le_refl _)
  cases hfil : ps.filter (fun p => decide (p < U64MAX)) with
  | nil =>
    rw [hfil] at hA
    simp only [List.foldl_nil] at hA
    rw [if_pos hA]
  | cons q qs =>
    rw [hfil] at hA
    have hq : q < U64MAX := by
      have : q ∈ ps.filter (fun p => decide (p < U64MAX)) := by
        rw [hfil]; exact List.mem_cons_self q qs
      simpa using (List.mem_filter.mp this).2
    rw [List.foldl_cons] at hA
    have hmn : Nat.min U64MAX q = q := Nat.min_eq_right (Nat.le_of_lt hq)
    rw [hmn] at hA
    have hle : ps.foldl Nat.min U64MAX ≤ q := hA ▸ foldl_min_le qs q
    rw [if_neg (by omega), hA]

set_option maxRecDepth 400000 in
/-- The recomputation of update_best_prices agrees with the specification
best prices. -/
theorem updateBestPrices_spec (ob : Orderbook) (data : List Order) :
    (updateBestPrices ob data).best_bid = specBestBid data ∧
    (updateBestPrices ob data).best_ask = specBestAsk data := by
  constructor
  · show ((List.range MAX_ORDERS).foldl (bestPricesStep data) (0, U64MAX)).1 =
      specBestBid data
    rw [bestPrices_fold_fst]
    unfold specBestBid livePricesBid
    rw [foldl_max_livePricesBid]
  · show (if ((List.range MAX_ORDERS).foldl (bestPricesStep data) (0, U64MAX)).2 =
        U64MAX then 0
      else ((List.range MAX_ORDERS).foldl (bestPricesStep data) (0, U64MAX)).2) =
      specBestAsk data
    rw [bestPrices_fold_snd data (List.range MAX_ORDERS) (0, U64MAX) (Nat.le_refl _)]
    rw [← foldl_min_livePricesAsk data (List.range MAX_ORDERS) U64MAX (Nat.le_refl _)]
    unfold specBestAsk livePricesAsk
    exact minFold_render _

theorem updateBestPrices_free_list_head (ob : Orderbook) (data : List Order) :
    (updateBestPrices ob data).free_list_head = ob.free_list_head := by
  unfold updateBestPrices
  rfl

theorem slotGet_ge_length {data : List Order} {s : Nat} (h : data.length ≤ s) :
    slotGet data s = zeroOrder := by
  unfold slotGet
  rw [List.getD_eq_getElem?_getD, List.getElem?_eq_none h]
  rfl

theorem liveAt_eq_false_of_rem {data : List Order} {s : Nat}
    (h : (slotGet data s).remaining_size = 0) : liveAt data s = false := by
  unfold liveAt
  cases hgo : getOrder data s with
  | none => rfl
  | some o =>
    obtain ⟨-, -, he, -⟩ := getOrder_some hgo
    rw [he] at h
    simp [h]

theorem liveAt_set_ne {data : List Order} {s j : Nat} {o : Order}
    (h : s ≠ j) : liveAt (data.set s o) j = liveAt data j := by
  unfold liveAt
  rw [getOrder_set_ne h]

theorem liveAt_set_dead {data : List Order} {s : Nat} {o : Order}
    (h : o.remaining_size = 0) : liveAt (data.set s o) s = false := by
  apply liveAt_eq_false_of_rem
  by_cases hl : s < data.length
  · rw [slotGet_set_self hl]
    exact h
  · rw [slotGet_ge_length (by rw [List.length_set]; omega)]
    rfl

theorem liveAt_set_live {data : List Order} {s : Nat} {o : Order}
    (hm : s < MAX_ORDERS) (hl : s < data.length) (h : 0 < o.remaining_size) :
    liveAt (data.set s o) s = true := by
  have hz : o ≠ zeroOrder := by
    intro he
    rw [he] at h
    exact absurd h (by decide)
  unfold liveAt
  rw [getOrder_set_self hm hl hz]
  exact decide_eq_true h

theorem liveAt_true_of_getOrder {data : List Order} {s : Nat} {o : Order}
    (hgo : getOrder data s = some o) (hpos : 0 < o.remaining_size) :
    liveAt data s = true := by
  unfold liveAt
  rw [hgo]
  exact decide_eq_true hpos

theorem countP_congr_on {p q : Nat → Bool} :
    ∀ l : List Nat, (∀ i ∈ l, p i = q i) → l.countP p = l.countP q := by
  intro l
  induction l with
  | nil => intro _; rfl
  | cons a t ih =>
    intro h
    rw [List.countP_cons, List.countP_cons, h a (List.mem_cons_self a t),
      ih (fun i hi => h i (List.mem_cons_of_mem a hi))]

theorem countP_succ_at {p q : Nat → Bool} {s : Nat} :
    ∀ l : List Nat, l.Nodup → s ∈ l → (∀ i ∈ l, i ≠ s → p i = q i) →
      p s = false → q s = true → l.countP q = l.countP p + 1 := by
  intro l
  induction l with
  | nil => intro _ hmem _ _ _; exact absurd hmem (List.not_mem_nil s)
  | cons a t ih =>
    intro hnd hmem hagree hps hqs
    rw [List.countP_cons, List.countP_cons]
    by_cases has : a = s
    · subst has
      have hnott : a ∉ t := (List.nodup_cons.mp hnd).1
      have hct : t.countP p = t.countP q :=
        countP_congr_on t (fun i hi => hagree i (List.mem_cons_of_mem a hi)
          (fun he => hnott (he ▸ hi)))
      rw [hps, hqs, hct]
      simp
    · have hmt : s ∈ t := by
        rcases List.mem_cons.mp hmem with h1 | h2
        · exact absurd h1.symm has
        · exact h2
      have hpa : p a = q a := hagree a (List.mem_cons_self a t) has
      rw [hpa, ih (List.nodup_cons.mp hnd).2 hmt
        (fun i hi hne => hagree i (List.mem_cons_of_mem a hi) hne) hps hqs]
      exact Nat.add_right_comm _ 1 _

theorem liveCount_set_step {data : List Order} {s : Nat} {o : Order}
    (hM : s < MAX_ORDERS) (hL : s < data.length) (hlive : liveAt data s = true) :
    liveCount data =
      liveCount (data.set s o) + (if o.remaining_size = 0 then 1 else 0) := by
  by_cases hz : o.remaining_size = 0
  · rw [if_pos hz]
    unfold liveCount
    refine countP_succ_at (List.range MAX_ORDERS) (List.nodup_range MAX_ORDERS)
      (List.mem_range.mpr hM) ?_ (liveAt_set_dead hz) hlive
    intro i _ hneq
    exact liveAt_set_ne (Ne.symm hneq)
  · rw [if_neg hz, Nat.add_zero]
    unfold liveCount
    refine countP_congr_on _ ?_
    intro i _
    by_cases his : i = s
    · subst his
      rw [liveAt_set_live hM hL (Nat.pos_of_ne_zero hz), hlive]
    · rw [liveAt_set_ne (Ne.symm his)]

theorem FreeList.mem_spec {data : List Order} :
    ∀ {h : Nat} {ns : List Nat}, FreeList data h ns → ∀ j ∈ ns,
      j ≠ 0 ∧ j < MAX_ORDERS ∧ j < data.length ∧
        (slotGet data j).remaining_size = 0 := by
  intro h ns hfl
  induction hfl with
  | nil => intro j hj; exact absurd hj (List.not_mem_nil j)
  | cons h1 h2 h3 h4 h5 h6 h7 ih =>
    intro j hj
    rcases List.mem_cons.mp hj with he | ht
    · subst he
      exact ⟨h1, h2, h3, h4⟩
    · exact ih j ht

theorem FreeList.frame {data : List Order} {s : Nat} {o : Order} :
    ∀ {h : Nat} {ns : List Nat}, FreeList data h ns → s ∉ ns →
      FreeList (data.set s o) h ns := by
  intro h ns hfl
  induction hfl with
  | nil => intro _; exact FreeList.nil
  | cons h1 h2 h3 h4 h5 h6 h7 ih =>
    rename_i s1 nxt1 ns1
    intro hnm
    have hne : s ≠ s1 := fun he => hnm (he ▸ List.mem_cons_self s1 ns1)
    refine FreeList.cons h1 h2 ?_ ?_ ?_
      (ih (fun hm => hnm (List.mem_cons_of_mem s1 hm))) h7
    · rw [List.length_set]
      exact h3
    · rw [slotGet_set_ne hne]
      exact h4
    · unfold linkOf
      rw [slotGet_set_ne hne]
      exact h5

theorem FreeList.head_cases {data : List Order} {h : Nat} {ns : List Nat}
    (hfl : FreeList data h ns) :
    (h = 0 ∧ ns = []) ∨
    (h ≠ 0 ∧ h < MAX_ORDERS ∧ h < data.length ∧
      (slotGet data h).remaining_size = 0 ∧
      FreeList data (linkOf data h) ns.tail ∧ h ∉ ns.tail ∧ ns = h :: ns.tail) := by
  cases hfl with
  | nil => exact Or.inl ⟨rfl, rfl⟩
  | cons h1 h2 h3 h4 h5 h6 h7 =>
    exact Or.inr ⟨h1, h2, h3, h4, h5.symm ▸ h6, h7, rfl⟩

theorem FreeList.not_mem_of_live {data : List Order} {h j : Nat} {ns : List Nat}
    (hfl : FreeList data h ns) (hlive : liveAt data j = true) : j ∉ ns := by
  intro hm
  obtain ⟨-, -, -, hrem⟩ := FreeList.mem_spec hfl j hm
  rw [liveAt_eq_false_of_rem hrem] at hlive
  cases hlive

theorem freeSlot_chain {ob ob1 : Orderbook} {data data1 : List Order} {slot : Nat}
    {ns : List Nat} (h : freeSlot ob data slot = Except.ok (ob1, data1))
    (hchain : FreeList data ob.free_list_head ns) (hnm : slot ∉ ns) :
    ∃ ns1, FreeList data1 ob1.free_list_head ns1 ∧ ∀ j ∈ ns1, j = slot ∨ j ∈ ns := by
  obtain ⟨hM, hL, hob, hdata⟩ := freeSlot_ok h
  subst hob
  subst hdata
  by_cases hz : slot = 0
  · subst hz
    exact ⟨[], FreeList.nil, fun j hj => absurd hj (List.not_mem_nil j)⟩
  · refine ⟨slot :: ns, ?_, ?_⟩
    · refine FreeList.cons hz hM ?_ ?_ ?_ (FreeList.frame hchain hnm) hnm
      · rw [List.length_set]
        exact hL
      · rw [slotGet_set_self hL]
        split <;> rfl
      · unfold linkOf
        rw [slotGet_set_self hL]
        by_cases hh : ob.free_list_head = 0
        · rw [if_neg (not_not_intro hh), hh]
          rfl
        · rw [if_pos hh]
          show ob.free_list_head % 2 ^ 64 = ob.free_list_head
          rcases FreeList.head_cases hchain with ⟨he, -⟩ | ⟨-, hlt, -⟩
          · exact absurd he hh
          · have hmax : MAX_ORDERS = 1000 := rfl
            exact Nat.mod_eq_of_lt (by omega)
    · intro j hj
      rcases List.mem_cons.mp hj with he | hm
      · exact Or.inl he
      · exact Or.inr hm

theorem freeIfFilled_spec {ob ob1 : Orderbook} {data data1 : List Order}
    {slot : Nat} {o : Order} {ns : List Nat}
    (h : freeIfFilled ob data slot o = Except.ok (ob1, data1))
    (hchain : FreeList data ob.free_list_head ns) (hnm : slot ∉ ns)
    (hdead : o.remaining_size = 0 → liveAt data slot = false) :
    (∃ ns1, FreeList data1 ob1.free_list_head ns1 ∧
      ∀ j ∈ ns1, j = slot ∨ j ∈ ns) ∧
    liveCount data1 = liveCount data ∧
    (∀ j, j ≠ slot → liveAt data1 j = liveAt data j) ∧
    ob1.order_count + (if o.remaining_size = 0 then 1 else 0) = ob.order_count := by
  unfold freeIfFilled at h
  split at h
  · rename_i hfil
    have hrem : o.remaining_size = 0 := hfil
    split at h
    · exact Except.noConfusion h
    rename_i obF dataF hfree
    split at h
    · exact Except.noConfusion h
    rename_i c hsub
    obtain ⟨hA, hB⟩ := Prod.mk.inj (Except.ok.inj h)
    obtain ⟨hM, hL, hobF, hdataF⟩ := freeSlot_ok hfree
    obtain ⟨hc, hle⟩ := checkedSub_some hsub
    obtain ⟨ns1, hns1, hsub1⟩ := freeSlot_chain hfree hchain hnm
    have hdl : liveAt data slot = false := hdead hrem
    have hclr : (if ob.free_list_head ≠ 0 then
        { zeroOrder with order_id := ob.free_list_head }
      else zeroOrder).remaining_size = 0 := by
      split <;> rfl
    have hd1 : liveAt dataF slot = false := by
      rw [hdataF]
      exact liveAt_set_dead hclr
    refine ⟨?_, ?_, ?_, ?_⟩
    · refine ⟨ns1, ?_, hsub1⟩
      rw [← hB]
      have hfh : ob1.free_list_head = obF.free_list_head := by
        rw [← hA, hobF]
      rw [hfh]
      exact hns1
    · rw [← hB, hdataF]
      unfold liveCount
      refine countP_congr_on _ ?_
      intro i _
      by_cases his : i = slot
      · subst his
        rw [hdataF] at hd1
        rw [hd1, hdl]
      · rw [liveAt_set_ne (Ne.symm his)]
    · intro j hj
      rw [← hB, hdataF]
      exact liveAt_set_ne (Ne.symm hj)
    · rw [if_pos hrem, ← hA]
      have hoc : obF.order_count = ob.order_count := by
        rw [hobF]
      show c + 1 = ob.order_count
      omega
  · rename_i hnfil
    obtain ⟨hA, hB⟩ := Prod.mk.inj (Except.ok.inj h)
    have hne : o.remaining_size ≠ 0 := fun hr => hnfil hr
    rw [← hA, ← hB, if_neg hne, Nat.add_zero]
    exact ⟨⟨ns, hchain, fun j hj => Or.inr hj⟩, rfl, fun j _ => rfl, rfl⟩

theorem allocateSlot_chain {ob ob1 : Orderbook} {data : List Order} {slot : Nat}
    {ns : List Nat} (h : allocateSlot ob data = Except.ok (ob1, slot))
    (hchain : FreeList data ob.free_list_head ns) :
    ob1.order_count = ob.order_count ∧ slot < MAX_ORDERS ∧
    liveAt data slot = false ∧
    ∃ ns1, FreeList data ob1.free_list_head ns1 ∧ slot ∉ ns1 := by
  have hdef : allocateSlot ob data =
      (if ob.free_list_head ≠ 0 ∧ ob.free_list_head < MAX_ORDERS then
        if ob.free_list_head < data.length then
          Except.ok
            ({ ob with free_list_head := linkOf data ob.free_list_head },
              ob.free_list_head)
        else Except.ok ({ ob with free_list_head := 0 }, ob.free_list_head)
      else if ob.order_count < MAX_ORDERS then
        match firstZeroSlot data with
        | some i => Except.ok (ob, i)
        | none => Except.error DexError.OrderbookFull
      else Except.error DexError.OrderbookFull) := rfl
  rw [hdef] at h
  split at h
  · rename_i hcond
    rcases FreeList.head_cases hchain with ⟨hz, -⟩ |
      ⟨hnz, hlt, hlen, hrem, hrest, hnmem, hns⟩
    · exact absurd hz hcond.1
    split at h
    · obtain ⟨hA, hB⟩ := Prod.mk.inj (Except.ok.inj h)
      subst hB
      refine ⟨by rw [← hA], hlt, liveAt_eq_false_of_rem hrem, ns.tail, ?_, hnmem⟩
      have hfh : ob1.free_list_head = linkOf data ob.free_list_head := by
        rw [← hA]
      rw [hfh]
      exact hrest
    · rename_i hlen2
      exact absurd hlen hlen2
  · rename_i hcond
    split at h
    · split at h
      · rename_i i hfz
        obtain ⟨hA, hB⟩ := Prod.mk.inj (Except.ok.inj h)
        subst hB
        have hz : ob.free_list_head = 0 := by
          rcases FreeList.head_cases hchain with ⟨hz, -⟩ | ⟨hnz, hlt, -⟩
          · exact hz
          · exact absurd ⟨hnz, hlt⟩ hcond
        have hp := List.find?_some hfz
        have hmem := List.mem_of_find?_eq_some hfz
        have hiM : i < MAX_ORDERS := List.mem_range.mp hmem
        obtain ⟨hiL, hiz⟩ := of_decide_eq_true hp
        refine ⟨by rw [← hA], hiM, ?_, [], ?_, List.not_mem_nil i⟩
        · exact liveAt_eq_false_of_rem (by rw [hiz]; rfl)
        · have hfh : ob1.free_list_head = ob.free_list_head := by
            rw [← hA]
          rw [hfh, hz]
          exact FreeList.nil
      · exact Except.noConfusion h
    · exact Except.noConfusion h

theorem findOrderLoop_some {data : List Order} {k oid : Nat} :
    ∀ {l : List Nat} {s : Nat} {o : Order},
      findOrderLoop data k oid l = some (s, o) →
      getOrder data s = some o ∧ s ∈ l := by
  intro l
  induction l with
  | nil => intro s o h; exact Option.noConfusion h
  | cons i rest ih =>
    intro s o h
    unfold findOrderLoop at h
    split at h
    · rename_i o1 hgo
      split at h
      · obtain ⟨h1, h2⟩ := Prod.mk.inj (Option.some_inj.mp h)
        subst h1
        subst h2
        exact ⟨hgo, List.mem_cons_self i rest⟩
      · obtain ⟨hg, hm⟩ := ih h
        exact ⟨hg, List.mem_cons_of_mem i hm⟩
    · obtain ⟨hg, hm⟩ := ih h
      exact ⟨hg, List.mem_cons_of_mem i hm⟩

theorem placeOrderHandler_inv {m : Market} {ob : Orderbook} {data : List Order}
    {ts : TraderState} {k : Nat} {clock : Clock} {p : PlaceOrderParams}
    {r : PlaceResult} (h : placeOrderHandler m ob data ts k clock p = Except.ok r)
    (hlot : 0 < m.lot_size) (hinv : BookInv ob data) :
    BookInv r.ob r.data ∧ r.market.lot_size = m.lot_size := by
  obtain ⟨-, -, -, -, -, hszle, -, -, ob1, slot, ts1, halloc, hsM, hsL, -,
    hdata, hob, hmkt, -, -, -⟩ := placeOrder_ok_spec h
  obtain ⟨hbb, hba, hoc, ns, hfl⟩ := hinv
  obtain ⟨hocnt, hslotM, hslotdead, ns1, hns1, hnm1⟩ := allocateSlot_chain halloc hfl
  have hpos : 0 < (Order.new r.order_id k p.side p.price p.size p.time_in_force
      clock.unix_timestamp).remaining_size := by
    show 0 < p.size
    omega
  have hstep : liveCount r.data = liveCount data + 1 := by
    rw [hdata]
    unfold liveCount
    refine countP_succ_at (List.range MAX_ORDERS) (List.nodup_range MAX_ORDERS)
      (List.mem_range.mpr hsM) ?_ hslotdead (liveAt_set_live hsM hsL hpos)
    intro i _ hneq
    exact (liveAt_set_ne (Ne.symm hneq)).symm
  refine ⟨⟨?_, ?_, ?_, ?_⟩, by rw [hmkt]⟩
  · rw [hob]
    exact (updateBestPrices_spec _ _).1
  · rw [hob]
    exact (updateBestPrices_spec _ _).2
  · rw [hob, updateBestPrices_order_count]
    show ob1.order_count + 1 = liveCount r.data
    omega
  · refine ⟨ns1, ?_⟩
    rw [hob, updateBestPrices_free_list_head]
    show FreeList r.data ob1.free_list_head ns1
    rw [hdata]
    exact FreeList.frame hns1 hnm1

theorem cancelOrderHandler_inv {m : Market} {ob : Orderbook} {data : List Order}
    {ts : TraderState} {k oid : Nat} {r : CancelResult}
    (h : cancelOrderHandler m ob data ts k oid = Except.ok r)
    (hinv : BookInv ob data) :
    BookInv r.ob r.data ∧ r.market.lot_size = m.lot_size := by
  unfold cancelOrderHandler at h
  split at h
  · exact Except.noConfusion h
  rename_i slot order hfind
  split at h
  · exact Except.noConfusion h
  rename_i hnf
  split at h
  · exact Except.noConfusion h
  rename_i ts1 hunlock
  split at h
  · exact Except.noConfusion h
  rename_i ob1 data1 hfree
  split at h
  · exact Except.noConfusion h
  rename_i cnt hsub
  split at h
  · exact Except.noConfusion h
  rename_i ooc hsub2
  have hr := Except.ok.inj h
  subst hr
  unfold findOrderForCancel at hfind
  obtain ⟨hgo, hmem⟩ := findOrderLoop_some hfind
  obtain ⟨hsM, hsL, hslot, hnz⟩ := getOrder_some hgo
  have hrem : order.remaining_size ≠ 0 := fun hz => hnf hz
  have hlive : liveAt data slot = true :=
    liveAt_true_of_getOrder hgo (Nat.pos_of_ne_zero hrem)
  obtain ⟨hbb, hba, hoc, ns, hfl⟩ := hinv
  have hnm : slot ∉ ns := FreeList.not_mem_of_live hfl hlive
  obtain ⟨ns1, hns1, -⟩ := freeSlot_chain hfree hfl hnm
  obtain ⟨hfM, hfL, hob1, hdata1⟩ := freeSlot_ok hfree
  obtain ⟨hc, hle⟩ := checkedSub_some hsub
  have hoc1 : ob1.order_count = ob.order_count := by
    rw [hob1]
  have hcl : liveCount data = liveCount data1 +
      (if (if ob.free_list_head ≠ 0 then
          { zeroOrder with order_id := ob.free_list_head }
        else zeroOrder).remaining_size = 0 then 1 else 0) := by
    rw [hdata1]
    exact liveCount_set_step hsM hsL hlive
  have hclr : (if ob.free_list_head ≠ 0 then
      { zeroOrder with order_id := ob.free_list_head }
    else zeroOrder).remaining_size = 0 := by
    split <;> rfl
  rw [hclr] at hcl
  simp only [if_pos] at hcl
  refine ⟨⟨?_, ?_, ?_, ?_⟩, rfl⟩
  · exact (updateBestPrices_spec _ _).1
  · exact (updateBestPrices_spec _ _).2
  · show (updateBestPrices { ob1 with order_count := cnt } data1).order_count =
      liveCount data1
    rw [updateBestPrices_order_count]
    show cnt = liveCount data1
    omega
  · refine ⟨ns1, ?_⟩
    show FreeList data1
      (updateBestPrices { ob1 with order_count := cnt } data1).free_list_head ns1
    rw [updateBestPrices_free_list_head]
    exact hns1

theorem matchIteration_inv {m : Market} {cfg : GlobalConfig} {clock : Clock}
    {ob : Orderbook} {data : List Order} {iters : Nat} {ob2 : Orderbook}
    {data2 : List Order} {f : Fill}
    (h : matchIteration m cfg clock ob data iters = MatchStep.step ob2 data2 f)
    (hinv : BookInv ob data) : BookInv ob2 data2 := by
  unfold matchIteration at h
  split at h
  · exact MatchStep.noConfusion h
  rename_i bidSlot bidOrder hfb
  split at h
  · exact MatchStep.noConfusion h
  rename_i askSlot askOrder hfa
  split at h
  · exact MatchStep.noConfusion h
  split at h
  · exact MatchStep.noConfusion h
  rename_i bidOrder1 hfill1
  split at h
  · exact MatchStep.noConfusion h
  rename_i askOrder1 hfill2
  split at h
  · exact MatchStep.noConfusion h
  split at h
  · exact MatchStep.noConfusion h
  split at h
  · exact MatchStep.noConfusion h
  rename_i dataA hset1
  split at h
  · exact MatchStep.noConfusion h
  rename_i dataB hset2
  split at h
  · exact MatchStep.noConfusion h
  rename_i obC dataC hfree1
  split at h
  · exact MatchStep.noConfusion h
  rename_i obD dataD hfree2
  obtain ⟨e1, e2, e3⟩ := MatchStep.step.inj h
  subst e1
  subst e2
  obtain ⟨hgb, hsb, hrb⟩ := findBestBid_some hfb
  obtain ⟨hga, hsa, hra⟩ := findBestAsk_some hfa
  obtain ⟨hbM, hbL, -, -⟩ := getOrder_some hgb
  obtain ⟨haM, haL, -, -⟩ := getOrder_some hga
  have hne : bidSlot ≠ askSlot := by
    intro he
    rw [he, hga] at hgb
    have heq := Option.some_inj.mp hgb
    rw [heq] at hsa
    omega
  obtain ⟨hs1M, hs1L, hd1⟩ := setOrder_ok hset1
  obtain ⟨hs2M, hs2L, hd2⟩ := setOrder_ok hset2
  subst hd1
  subst hd2
  obtain ⟨hbb, hba, hoc, ns, hfl⟩ := hinv
  have hlb : liveAt data bidSlot = true := liveAt_true_of_getOrder hgb hrb
  have hla : liveAt data askSlot = true := liveAt_true_of_getOrder hga hra
  have hnmb : bidSlot ∉ ns := FreeList.not_mem_of_live hfl hlb
  have hnma : askSlot ∉ ns := FreeList.not_mem_of_live hfl hla
  have hflB : FreeList ((data.set bidSlot bidOrder1).set askSlot askOrder1)
      ob.free_list_head ns := FreeList.frame (FreeList.frame hfl hnmb) hnma
  have hlaA : liveAt (data.set bidSlot bidOrder1) askSlot = true := by
    rw [liveAt_set_ne hne]
    exact hla
  have hcount1 : liveCount data = liveCount (data.set bidSlot bidOrder1) +
      (if bidOrder1.remaining_size = 0 then 1 else 0) :=
    liveCount_set_step hbM hbL hlb
  have hcount2 : liveCount (data.set bidSlot bidOrder1) =
      liveCount ((data.set bidSlot bidOrder1).set askSlot askOrder1) +
      (if askOrder1.remaining_size = 0 then 1 else 0) :=
    liveCount_set_step haM hs2L hlaA
  have hdeadb : bidOrder1.remaining_size = 0 →
      liveAt ((data.set bidSlot bidOrder1).set askSlot askOrder1) bidSlot =
        false := by
    intro hz
    rw [liveAt_set_ne (Ne.symm hne)]
    exact liveAt_set_dead hz
  obtain ⟨⟨nsC, hflC, hsubC⟩, hlcC, hoffC, hocC⟩ :=
    freeIfFilled_spec hfree1 hflB hnmb hdeadb
  have hnmaC : askSlot ∉ nsC := by
    intro hm
    rcases hsubC askSlot hm with he | hm2
    · exact hne he.symm
    · exact hnma hm2
  have hdeada : askOrder1.remaining_size = 0 → liveAt dataC askSlot = false := by
    intro hz
    rw [hoffC askSlot (Ne.symm hne)]
    exact liveAt_set_dead hz
  obtain ⟨⟨nsD, hflD, -⟩, hlcD, -, hocD⟩ :=
    freeIfFilled_spec hfree2 hflC hnmaC hdeada
  refine ⟨(updateBestPrices_spec _ _).1, (updateBestPrices_spec _ _).2, ?_, ?_⟩
  · rw [updateBestPrices_order_count]
    omega
  · exact ⟨nsD, by rw [updateBestPrices_free_list_head]; exact hflD⟩

theorem matchLoop_inv {m : Market} {cfg : GlobalConfig} {clock : Clock} :
    ∀ (fuel iters : Nat) (ob : Orderbook) (data : List Order) (acc : List Fill)
      (res : Orderbook × List Order × List Fill),
      matchLoop m cfg clock fuel iters ob data acc = Except.ok res →
      BookInv ob data → BookInv res.1 res.2.1 := by
  intro fuel
  induction fuel with
  | zero =>
    intro iters ob data acc res h hinv
    unfold matchLoop at h
    cases Except.ok.inj h
    exact hinv
  | succ n ih =>
    intro iters ob data acc res h hinv
    unfold matchLoop at h
    split at h
    · cases Except.ok.inj h
      exact hinv
    · exact Except.noConfusion h
    · rename_i ob1 data1 f hstep
      split at h
      · exact Except.noConfusion h
      · exact ih _ _ _ _ _ h (matchIteration_inv hstep hinv)

theorem matchOrdersHandler_inv {m : Market} {cfg : GlobalConfig} {clock : Clock}
    {ob : Orderbook} {data : List Order} {maxIter : Nat} {r : MatchResult}
    (h : matchOrdersHandler m cfg clock ob data maxIter = Except.ok r)
    (hinv : BookInv ob data) :
    BookInv r.ob r.data ∧ r.market.lot_size = m.lot_size := by
  unfold matchOrdersHandler at h
  split at h
  · exact Except.noConfusion h
  split at h
  · exact Except.noConfusion h
  rename_i ob1 data1 fills hloop
  have hres := matchLoop_inv maxIter 0 ob data [] (ob1, data1, fills) hloop hinv
  cases Except.ok.inj h
  exact ⟨hres, rfl⟩

theorem applyOp_inv {cfg : GlobalConfig} {s : SysState} {op : DexOp}
    {s1 : SysState} {fs : List Fill} (h : applyOp cfg s op = Except.ok (s1, fs))
    (hlot : 0 < s.market.lot_size) (hinv : BookInv s.ob s.data) :
    BookInv s1.ob s1.data ∧ s1.market.lot_size = s.market.lot_size := by
  cases op with
  | placeOp k p clock =>
    simp only [applyOp] at h
    split at h
    · exact Except.noConfusion h
    rename_i r hr
    obtain ⟨hA, -⟩ := Prod.mk.inj (Except.ok.inj h)
    obtain ⟨hbi, hml⟩ := placeOrderHandler_inv hr hlot hinv
    rw [← hA]
    exact ⟨hbi, hml⟩
  | cancelOp k oid =>
    simp only [applyOp] at h
    split at h
    · exact Except.noConfusion h
    rename_i r hr
    obtain ⟨hA, -⟩ := Prod.mk.inj (Except.ok.inj h)
    obtain ⟨hbi, hml⟩ := cancelOrderHandler_inv hr hinv
    rw [← hA]
    exact ⟨hbi, hml⟩
  | matchOp maxIter clock =>
    simp only [applyOp] at h
    split at h
    · exact Except.noConfusion h
    rename_i r hr
    obtain ⟨hA, -⟩ := Prod.mk.inj (Except.ok.inj h)
    obtain ⟨hbi, hml⟩ := matchOrdersHandler_inv hr hinv
    rw [← hA]
    exact ⟨hbi, hml⟩
  | depositOp k mint vault amount =>
    simp only [applyOp] at h
    split at h
    · exact Except.noConfusion h
    rename_i ts hts
    obtain ⟨hA, -⟩ := Prod.mk.inj (Except.ok.inj h)
    rw [← hA]
    exact ⟨hinv, rfl⟩
  | withdrawOp k mint vault amount =>
    simp only [applyOp] at h
    split at h
    · exact Except.noConfusion h
    rename_i ts hts
    obtain ⟨hA, -⟩ := Prod.mk.inj (Except.ok.inj h)
    rw [← hA]
    exact ⟨hinv, rfl⟩

theorem runOps_inv {cfg : GlobalConfig} :
    ∀ (ops : List DexOp) (s : SysState), 0 < s.market.lot_size →
      BookInv s.ob s.data →
      BookInv (runOps cfg s ops).1.ob (runOps cfg s ops).1.data := by
  intro ops
  induction ops with
  | nil => intro s _ hinv; exact hinv
  | cons op rest ih =>
    intro s hlot hinv
    simp only [runOps]
    split
    · rename_i s1 fs happ
      obtain ⟨hinv1, hloteq⟩ := applyOp_inv happ hlot hinv
      exact ih s1 (by omega) hinv1
    · exact ih s hlot hinv

/-- C6 (amended: the fees are 50, not 5): on the simple-cross scenario
(tick 100, lot 1000, both fees 10 bps, trader 1 bid 10000 x 5000 placed
first, trader 2 ask 10000 x 5000), match_orders produces exactly one
fill at price 10000 and size 5000 with quote_amount 50000 and
maker_fee = taker_fee = floor(50000 * 10 / 10000) = 50, the bid side
(trader 1) is the maker, both orders are removed from the slab, and the
header afterwards has best_bid = best_ask = 0 and order_count 0. -/
theorem simple_cross_scenario :
    matchOrdersHandler scMarket scConfig ⟨3, 7⟩ scOrderbook [scBid, scAsk] 10 =
      Except.ok
        ⟨⟨500, 5, 11, 12, 21, 22, 100, 1000, 9, false, 0, 0, 0, 0⟩,
         ⟨500, 0, 0, 0, 1⟩, [zeroOrder, zeroOrder], [scFill]⟩ ∧
    scFill.price = 10000 ∧ scFill.size = 5000 ∧ scFill.quote_amount = 50000 ∧
    scFill.maker_fee = 50 ∧ scFill.taker_fee = 50 ∧ scFill.is_bid_maker = true := by
  refine ⟨?_, rfl, rfl, rfl, rfl, rfl, rfl⟩
  set_option maxRecDepth 100000 in rfl

/-- C6 counterexample: the claim states maker_fee = taker_fee = 5 on the
simple cross, but the code computes floor(50000 * 10 / 10000) = 50 for
both fees. -/
theorem simple_cross_fee_cex :
    (matchOrdersHandler scMarket scConfig ⟨3, 7⟩ scOrderbook [scBid, scAsk] 10).map
        (fun r => r.fills.map (fun f => (f.maker_fee, f.taker_fee))) =
      Except.ok [(50, 50)] ∧ (50 : Nat) ≠ 5 := by
  refine ⟨?_, by decide⟩
  set_option maxRecDepth 100000 in rfl

/-- C1 (the code does not implement the claimed behaviour): the MatchOrders
account context carries no TraderState account, so a match_orders
transaction leaves every trader ledger untouched.  On the simple-cross
scenario the transaction succeeds and emits a fill with
quote_amount = 50000 and fees 50, yet the trader list after the
operation is exactly the trader list before it: the bid trader's
quote_locked + quote_available decreases by 0, not by
quote_amount + fee, and the ask trader's base_locked decreases by 0,
not by fill_size. -/
theorem match_orders_leaves_trader_ledgers_unchanged :
    applyOp scConfig scState (DexOp.matchOp 10 ⟨3, 7⟩) =
      Except.ok
        (⟨⟨500, 5, 11, 12, 21, 22, 100, 1000, 9, false, 0, 0, 0, 0⟩,
          ⟨500, 0, 0, 0, 1⟩, [zeroOrder, zeroOrder], scTraders⟩, [scFill]) ∧
    scFill.quote_amount + scFill.taker_fee = 50050 ∧ scFill.size = 5000 ∧
    (getTrader scTraders 1).quote_locked = 50000 ∧
    (getTrader scTraders 2).base_locked = 5000 := by
  refine ⟨?_, rfl, rfl, rfl, rfl⟩
  set_option maxRecDepth 100000 in rfl

/-- C3 (the code does not implement the claimed behaviour): a FOK bid of
size 5000 at price 10100 against total resting opposite liquidity of
2000 does not fail with InsufficientLiquidity; place_order performs no
probe at all, locks floor(10100 * 5000 / 1000) = 50500 quote, and rests
the FOK order on the book like a GTC order. -/
theorem fok_order_rests_without_liquidity_check :
    placeOrderHandler fokMarket fokOrderbook [fokAsk, zeroOrder] fokTrader 5 ⟨9, 0⟩
        fokParams =
      Except.ok
        ⟨⟨500, 5, 11, 12, 21, 22, 100, 1000, 9, false, 10100, 10000, 2, 0⟩,
         ⟨500, 10100, 10000, 2, 0⟩,
         [fokAsk, ⟨9000000, 5, 0, 10100, 5000, 5000, 2, 9, 0, 0, 0, 0⟩],
         ⟨5, 500, 0, 999949500, 0, 50500, 1⟩, 9000000⟩ := by
  set_option maxRecDepth 100000 in rfl

/-- C10: withdraw with amount 0 fails with InvalidOrderParams before any
other check, for every market, trader ledger, mint and vault, and the
rolled-back transaction changes no state and emits nothing. -/
theorem withdraw_zero_rejected :
    (∀ (m : Market) (ts : TraderState) (mint vault : Nat),
      withdrawHandler m ts mint vault 0 = Except.error DexError.InvalidOrderParams) ∧
    (∀ (cfg : GlobalConfig) (s : SysState) (k mint vault : Nat),
      runOps cfg s [DexOp.withdrawOp k mint vault 0] = (s, [])) := by
  constructor
  · intro m ts mint vault
    simp [withdrawHandler]
  · intro cfg s k mint vault
    simp [runOps, applyOp, withdrawHandler]

/-- C2 counterexample: with a resting bid at 10200 placed at timestamp 1
and a resting ask at 10100 placed at timestamp 2, the maker in the sense
of the claim (earlier timestamp) is the bid with limit price 10200, yet
the emitted fill executes at min(10200, 10100) = 10100. -/
theorem match_price_not_maker_price_cex :
    (matchOrdersHandler pxMarket scConfig ⟨3, 0⟩ pxOrderbook [pxBid, pxAsk] 10).map
        (fun r => r.fills.map
          (fun f => (f.price, f.bid_price, f.bid_timestamp, f.ask_timestamp))) =
      Except.ok [(10100, 10200, 1, 2)] ∧ (10100 : Nat) ≠ 10200 := by
  refine ⟨?_, by decide⟩
  set_option maxRecDepth 100000 in rfl

/-- C5 counterexample: (a) at timestamp 1, slot 2, iteration 0 the emitted
fill carries fill_id = 1 * 1000000 + 2 + 0 = 1000002, not the claimed
1 * 1000000 + 2 * 1000 + 0 = 1002000 (the slot counter is not scaled by
1000); (b) two match_orders transactions in the same market invoked at
the same clock (timestamp 3, slot 7) both emit a fill with
fill_id = 3000007: fill ids are not unique within a market and no
collision is detected. -/
theorem fill_id_formula_and_uniqueness_cex :
    ((matchOrdersHandler scMarket scConfig ⟨1, 2⟩ scOrderbook [scBid, scAsk] 10).map
        (fun r => r.fills.map Fill.fill_id) = Except.ok [1000002] ∧
      (1000002 : Nat) ≠ 1 * 1000000 + 2 * 1000 + 0) ∧
    (runOps scConfig pxState fidOps).2.map
        (fun f => (f.fill_id, f.bid_trader, f.ask_trader)) =
      [(3000007, 1, 2), (3000007, 3, 4)] := by
  refine ⟨⟨?_, by decide⟩, ?_⟩
  · set_option maxRecDepth 100000 in rfl
  · set_option maxRecDepth 400000 in rfl

/-- C7 counterexample: (a) after trader 1 places three bids and cancels the
second and third, free_slot has written the free-list link of the
previously freed slot into slot 2, so the slab holds two non-all-zero
slots while order_count is 1; (b) after placing a single ask priced
2^64 - 1 on a tick-1/lot-1 market, a live ask exists (minimum live ask
price 2^64 - 1) while the header best_ask is 0. -/
theorem book_metadata_agreement_cex :
    ((runOps scConfig slabState slabOps).1.ob.order_count = 1 ∧
      specNonFreeSlotCount (runOps scConfig slabState slabOps).1.data = 2) ∧
    ((runOps scConfig maxAskState
        [DexOp.placeOp 1 ⟨1, U64MAX, 1, 0⟩ ⟨1, 0⟩]).1.ob.best_ask = 0 ∧
      livePricesAsk (runOps scConfig maxAskState
        [DexOp.placeOp 1 ⟨1, U64MAX, 1, 0⟩ ⟨1, 0⟩]).1.data = [U64MAX] ∧
      U64MAX ≠ 0) := by
  refine ⟨⟨?_, ?_⟩, ?_, ?_, by decide⟩
  · set_option maxRecDepth 400000 in rfl
  · set_option maxRecDepth 400000 in rfl
  · set_option maxRecDepth 100000 in rfl
  · set_option maxRecDepth 100000 in rfl

/-- C9 counterexample: trader 2's PostOnly ask (time in force 3) placed at
timestamp 5 into an empty book rests; trader 1's GTC bid arrives within
the same second; the match designates the bid as maker
(bid.timestamp ≤ ask.timestamp holds on equality), so the resting
PostOnly ask is the taker and is charged the taker fee of 20, with
distinct maker and taker fee rates making the designation observable. -/
theorem postonly_taker_on_timestamp_tie_cex :
    (runOps potConfig potState potOps).2.map
        (fun f => (f.is_bid_maker, f.ask_tif, f.taker_fee, f.bid_timestamp,
          f.ask_timestamp)) =
      [(true, 3, 20, 5, 5)] := by
  set_option maxRecDepth 400000 in rfl

/-- C7 (amended): on a market with positive lot size, every sequence of
public operations preserves the orderbook header consistency invariant:
best_bid equals the maximum price over live resting bids (0 if none),
best_ask equals the minimum price over live resting asks priced below
the u64::MAX sentinel (0 if none), order_count equals the number of
slots holding an order with positive remaining size, and the free list
is a well formed chain of dead in-range slots. -/
theorem book_header_invariant_preserved (cfg : GlobalConfig) (s0 : SysState)
    (ops : List DexOp) (hlot : 0 < s0.market.lot_size)
    (hinv : BookInv s0.ob s0.data) :
    BookInv (runOps cfg s0 ops).1.ob (runOps cfg s0 ops).1.data :=
  runOps_inv ops s0 hlot hinv

/-- Witness for C7: the simple-cross state satisfies the invariant and the
theorem applies to it for a match_orders operation. -/
theorem book_header_invariant_preserved_witness :
    BookInv (runOps scConfig scState [DexOp.matchOp 10 ⟨3, 7⟩]).1.ob
      (runOps scConfig scState [DexOp.matchOp 10 ⟨3, 7⟩]).1.data :=
  book_header_invariant_preserved scConfig scState [DexOp.matchOp 10 ⟨3, 7⟩]
    (by decide)
    ⟨by set_option maxRecDepth 100000 in rfl,
     by set_option maxRecDepth 100000 in rfl,
     by set_option maxRecDepth 100000 in rfl,
     ⟨[], FreeList.nil⟩⟩

end Dex
